import Mathlib

set_option maxRecDepth 8000

/-!
Shallow embedding of the silero-vad-go speech detector (package `speech`,
files `detector.go` and the `Infer` file).  Samples and probabilities are
modelled as rationals, Go `int` as `ℤ` (window sizes, which are always
256 or 512, as `ℕ`), and the external ONNX inference engine as an explicit
deterministic function from the full input buffer (context plus window)
and the recurrent state to a probability and a new state.
-/

namespace SileroVAD

/-- Length of the recurrent state blob: 2 * 1 * 128 values (`stateLen`). -/
def stateLen : ℕ := 2 * 1 * 128

/-- Number of context samples kept in front of each window (`contextLen`). -/
def contextLen : ℕ := 64

/-- Mirrors `DetectorConfig`.  The ONNX log level is omitted (logging only). -/
structure DetectorConfig where
  ModelPath : String
  SampleRate : ℤ
  Threshold : ℚ
  MinSilenceDurationMs : ℤ
  SpeechPadMs : ℤ
deriving DecidableEq

/-- Mirrors `DetectorConfig.IsValid`; returns the first validation error. -/
def DetectorConfig.IsValid (c : DetectorConfig) : Option String :=
  if c.ModelPath = "" then
    some "invalid ModelPath: should not be empty"
  else if c.SampleRate ≠ 8000 ∧ c.SampleRate ≠ 16000 then
    some "invalid SampleRate: valid values are 8000 and 16000"
  else if c.Threshold ≤ 0 ∨ 1 ≤ c.Threshold then
    some "invalid Threshold: should be in range (0, 1)"
  else if c.MinSilenceDurationMs < 0 then
    some "invalid MinSilenceDurationMs: should be a positive number"
  else if c.SpeechPadMs < 0 then
    some "invalid SpeechPadMs: should be a positive number"
  else
    none

/-- Mirrors the `Detector` struct.  The cgo handles (api, env, session,
memory info, C strings, tensor dimension arrays) are resource plumbing for
the inference engine and are not part of the state machine. -/
structure Detector where
  cfg : DetectorConfig
  state : List ℚ
  windowSize : ℕ
  inputBuf : List ℚ
  pendingStart : ℚ
  pendingStartValid : Bool
  streamBuf : List ℚ
  currSample : ℤ
  triggered : Bool
  tempEnd : ℤ
deriving DecidableEq

/-- Mirrors `windowSizeForSampleRate`. -/
def windowSizeForSampleRate (sampleRate : ℤ) : ℕ :=
  if sampleRate = 8000 then 256 else 512

/-- Mirrors `NewDetector`, minus the ONNX environment/session creation
(whose failures are external to the state machine). -/
def NewDetector (cfg : DetectorConfig) : Except String Detector :=
  match cfg.IsValid with
  | some e => .error ("invalid config: " ++ e)
  | none =>
    .ok { cfg := cfg
          state := List.replicate stateLen 0
          windowSize := windowSizeForSampleRate cfg.SampleRate
          inputBuf := List.replicate (contextLen + windowSizeForSampleRate cfg.SampleRate) 0
          pendingStart := 0
          pendingStartValid := false
          streamBuf := []
          currSample := 0
          triggered := false
          tempEnd := 0 }

/-- Mirrors `Segment`. -/
structure Segment where
  SpeechStartAt : ℚ
  SpeechEndAt : ℚ
deriving DecidableEq

/-- Mirrors `speechEvent`. -/
structure SpeechEvent where
  hasStart : Bool
  startAt : ℚ
  hasEnd : Bool
  endAt : ℚ
  endStartAt : ℚ
deriving DecidableEq

/-- The Go zero value of `speechEvent`. -/
def SpeechEvent.empty : SpeechEvent :=
  { hasStart := false, startAt := 0, hasEnd := false, endAt := 0, endStartAt := 0 }

/-- A deterministic model of the external inference engine: maps the full
input buffer (context prefix followed by the window) and the recurrent
state to a speech probability and an updated recurrent state. -/
abbrev InferenceModel : Type := List ℚ → List ℚ → ℚ × List ℚ

/-- Outcome of `Infer`: Go returns `(prob float32, err error)` and mutates
the receiver, so all three are returned here. -/
structure InferOut where
  prob : ℚ
  err : Option String
  sd : Detector

/-- The lazy `windowSize` initialization performed at the top of `Infer`,
`Detect` and `DetectStream` for zero-value receivers. -/
def Detector.fixWindowSize (sd : Detector) : Detector :=
  if sd.windowSize = 0 then
    { sd with windowSize := windowSizeForSampleRate sd.cfg.SampleRate }
  else sd

/-- Mirrors `Infer`.  The ONNX run is replaced by the inference model `m`;
tensor creation/release and their failure paths are resource plumbing.
The final `copy(sd.inputBuf[:contextLen], sd.inputBuf[sd.windowSize:])`
moves the last `contextLen` entries of the buffer to its front. -/
def Infer (m : InferenceModel) (sd : Detector) (samples : List ℚ) : InferOut :=
  let sd := sd.fixWindowSize
  if samples.length ≠ sd.windowSize then
    { prob := 0, err := some "invalid samples length", sd := sd }
  else
    let expectedInputLen := contextLen + sd.windowSize
    let sd := if sd.inputBuf.length ≠ expectedInputLen then
        { sd with inputBuf := List.replicate expectedInputLen 0 }
      else sd
    let buf := sd.inputBuf.take contextLen ++ samples
    let out := m buf sd.state
    let nextBuf := buf.drop sd.windowSize ++ buf.drop contextLen
    { prob := out.1, err := none, sd := { sd with state := out.2, inputBuf := nextBuf } }

/-- First block of `advanceSpeech` (line 358-360): a probability back above
the threshold cancels a pending release. -/
def cancelRelease (sd : Detector) (speechProb : ℚ) : Detector :=
  if sd.cfg.Threshold ≤ speechProb ∧ sd.tempEnd ≠ 0 then { sd with tempEnd := 0 } else sd

/-- Second block of `advanceSpeech` (lines 362-376): entering the triggered
state and emitting the start event. -/
def startSpeech (sd : Detector) (speechProb : ℚ) (speechPadSamples : ℤ) :
    SpeechEvent × Detector :=
  if sd.cfg.Threshold ≤ speechProb ∧ ¬(sd.triggered = true) then
    let raw : ℚ := ((sd.currSample - (sd.windowSize : ℤ) - speechPadSamples : ℤ) : ℚ) /
      ((sd.cfg.SampleRate : ℤ) : ℚ)
    let speechStartAt := if raw < 0 then 0 else raw
    ({ SpeechEvent.empty with hasStart := true, startAt := speechStartAt },
     { sd with triggered := true, pendingStart := speechStartAt, pendingStartValid := true })
  else (SpeechEvent.empty, sd)

/-- Third block of `advanceSpeech` (lines 378-400): release debouncing and
segment finalization. -/
def endSpeech (sd : Detector) (event : SpeechEvent) (speechProb : ℚ)
    (minSilenceSamples speechPadSamples : ℤ) : Except String SpeechEvent × Detector :=
  if speechProb < sd.cfg.Threshold - 0.15 ∧ sd.triggered = true then
    let sd := if sd.tempEnd = 0 then { sd with tempEnd := sd.currSample } else sd
    if sd.currSample - sd.tempEnd < minSilenceSamples then
      (.ok event, sd)
    else
      let speechEndAt : ℚ := ((sd.tempEnd + speechPadSamples : ℤ) : ℚ) / ((sd.cfg.SampleRate : ℤ) : ℚ)
      let sd := { sd with tempEnd := 0, triggered := false }
      if ¬(sd.pendingStartValid = true) then
        (.error "unexpected speech end", sd)
      else
        (.ok { event with hasEnd := true, endAt := speechEndAt, endStartAt := sd.pendingStart },
         { sd with pendingStartValid := false })
  else (.ok event, sd)

/-- Mirrors `advanceSpeech` as its three sequential blocks.  The receiver is
mutated in place in Go, so the post-state is returned alongside the event
(or the error). -/
def advanceSpeech (sd : Detector) (speechProb : ℚ) (minSilenceSamples speechPadSamples : ℤ) :
    Except String SpeechEvent × Detector :=
  let sd := cancelRelease sd speechProb
  let startStep := startSpeech sd speechProb speechPadSamples
  endSpeech startStep.2 startStep.1 speechProb minSilenceSamples speechPadSamples

/-- Mirrors `processWindow`: infer, advance `currSample` by one window, then
run the hysteresis trigger. -/
def processWindow (m : InferenceModel) (sd : Detector) (window : List ℚ)
    (minSilenceSamples speechPadSamples : ℤ) : Except String SpeechEvent × Detector :=
  let r := Infer m sd window
  match r.err with
  | some e => (.error ("infer failed: " ++ e), r.sd)
  | none =>
    let sd := { r.sd with currSample := r.sd.currSample + (r.sd.windowSize : ℤ) }
    advanceSpeech sd r.prob minSilenceSamples speechPadSamples

/-- The per-event segment accumulation of `Detect` (lines 232-251): a start
event appends an open segment; an end event closes the most recently
appended segment when it is still open with a matching start, and appends
a standalone closed segment otherwise. -/
def appendBatchEvent (segments : List Segment) (event : SpeechEvent) : List Segment :=
  let segments :=
    if event.hasStart = true then
      segments ++ [{ SpeechStartAt := event.startAt, SpeechEndAt := 0 }]
    else segments
  if event.hasEnd = true then
    match segments.getLast? with
    | some lastSeg =>
      if lastSeg.SpeechEndAt = 0 ∧ lastSeg.SpeechStartAt = event.endStartAt then
        segments.dropLast ++ [{ lastSeg with SpeechEndAt := event.endAt }]
      else
        segments ++ [{ SpeechStartAt := event.endStartAt, SpeechEndAt := event.endAt }]
    | none => segments ++ [{ SpeechStartAt := event.endStartAt, SpeechEndAt := event.endAt }]
  else segments

/-- The window loop of `Detect`: consume one full window at a time,
accumulating segments via `appendBatchEvent`.  The `0 < windowSize`
conjunct records the loop-progress fact that the Go `for` loop relies on
(the window size is always 256 or 512 when `Detect` runs). -/
def detectLoop (m : InferenceModel) (windowSize : ℕ) (minSilenceSamples speechPadSamples : ℤ)
    (sd : Detector) (pcm : List ℚ) (segments : List Segment) :
    Except String (List Segment) × Detector :=
  if h : 0 < windowSize ∧ windowSize ≤ pcm.length then
    match processWindow m sd (pcm.take windowSize) minSilenceSamples speechPadSamples with
    | (.error e, sd) => (.error e, sd)
    | (.ok event, sd) =>
      detectLoop m windowSize minSilenceSamples speechPadSamples sd (pcm.drop windowSize)
        (appendBatchEvent segments event)
  else (.ok segments, sd)
termination_by pcm.length
decreasing_by
  simp only [List.length_drop]
  omega

/-- The derived silence debounce length in samples
(`MinSilenceDurationMs * SampleRate / 1000`, Go integer division). -/
def minSilenceSamplesOf (sd : Detector) : ℤ :=
  Int.tdiv (sd.cfg.MinSilenceDurationMs * sd.cfg.SampleRate) 1000

/-- The derived segment padding in samples
(`SpeechPadMs * SampleRate / 1000`, Go integer division). -/
def speechPadSamplesOf (sd : Detector) : ℤ :=
  Int.tdiv (sd.cfg.SpeechPadMs * sd.cfg.SampleRate) 1000

/-- Mirrors `Detect` (the `nil` receiver check aside; a `Detector` value is
never nil here). -/
def Detect (m : InferenceModel) (sd : Detector) (pcm : List ℚ) :
    Except String (List Segment) × Detector :=
  let sd := sd.fixWindowSize
  let windowSize := sd.windowSize
  if pcm.length < windowSize then (.error "not enough samples", sd)
  else
    detectLoop m windowSize (minSilenceSamplesOf sd) (speechPadSamplesOf sd) sd pcm []

/-- The per-event segment accumulation of `DetectStream`: every event is
returned as its own segment (open for a start, closed for an end). -/
def appendStreamEvent (segments : List Segment) (event : SpeechEvent) : List Segment :=
  let segments :=
    if event.hasStart = true then
      segments ++ [{ SpeechStartAt := event.startAt, SpeechEndAt := 0 }]
    else segments
  if event.hasEnd = true then
    segments ++ [{ SpeechStartAt := event.endStartAt, SpeechEndAt := event.endAt }]
  else segments

/-- The main window loop of `DetectStream` (from `index` onwards), plus the
final buffering of the partial remainder into `streamBuf`. -/
def streamLoop (m : InferenceModel) (windowSize : ℕ) (minSilenceSamples speechPadSamples : ℤ)
    (sd : Detector) (pcm : List ℚ) (segments : List Segment) :
    Except String (List Segment) × Detector :=
  if h : 0 < windowSize ∧ windowSize ≤ pcm.length then
    match processWindow m sd (pcm.take windowSize) minSilenceSamples speechPadSamples with
    | (.error e, sd) => (.error e, sd)
    | (.ok event, sd) =>
      streamLoop m windowSize minSilenceSamples speechPadSamples sd (pcm.drop windowSize)
        (appendStreamEvent segments event)
  else
    let sd := if pcm.length ≠ 0 then { sd with streamBuf := sd.streamBuf ++ pcm } else sd
    (.ok segments, sd)
termination_by pcm.length
decreasing_by
  simp only [List.length_drop]
  omega

/-- Mirrors `DetectStream`. -/
def DetectStream (m : InferenceModel) (sd : Detector) (pcm : List ℚ) :
    Except String (List Segment) × Detector :=
  if pcm.length = 0 then (.ok [], sd)
  else
    let sd := sd.fixWindowSize
    let windowSize := sd.windowSize
    let minSilenceSamples := minSilenceSamplesOf sd
    let speechPadSamples := speechPadSamplesOf sd
    if 0 < sd.streamBuf.length then
      let needed := windowSize - sd.streamBuf.length
      if pcm.length < needed then
        (.ok [], { sd with streamBuf := sd.streamBuf ++ pcm })
      else
        let sd := { sd with streamBuf := sd.streamBuf ++ pcm.take needed }
        match processWindow m sd sd.streamBuf minSilenceSamples speechPadSamples with
        | (.error e, sd) => (.error e, sd)
        | (.ok event, sd) =>
          let segments := appendStreamEvent [] event
          streamLoop m windowSize minSilenceSamples speechPadSamples
            { sd with streamBuf := [] } (pcm.drop needed) segments
    else
      streamLoop m windowSize minSilenceSamples speechPadSamples sd pcm []

/-- Mirrors `Reset`: clears all trigger state, the carry-over buffer, the
recurrent state and the input buffer (`clear` keeps the buffer length). -/
def Reset (sd : Detector) : Detector :=
  { sd with currSample := 0, triggered := false, tempEnd := 0, pendingStart := 0,
            pendingStartValid := false, streamBuf := [],
            state := List.replicate stateLen 0,
            inputBuf := List.replicate sd.inputBuf.length 0 }

/-- The clamped start timestamp computed when the trigger fires:
`max(0, (currSample − windowSize − speechPadSamples) / sampleRate)`. -/
def startTimestamp (sd : Detector) (speechPadSamples : ℤ) : ℚ :=
  let raw : ℚ := ((sd.currSample - (sd.windowSize : ℤ) - speechPadSamples : ℤ) : ℚ) /
    ((sd.cfg.SampleRate : ℤ) : ℚ)
  if raw < 0 then 0 else raw

/-- The candidate release point: `tempEnd` if a release is already pending,
else the current sample. -/
def releasePoint (sd : Detector) : ℤ :=
  if sd.tempEnd = 0 then sd.currSample else sd.tempEnd

section AdvanceSpeechLemmas

variable (sd : Detector) (ev : SpeechEvent) (p : ℚ) (a b : ℤ)

theorem cancelRelease_of_low (hp : ¬ sd.cfg.Threshold ≤ p) : cancelRelease sd p = sd := by
  unfold cancelRelease
  rw [if_neg]
  tauto

theorem cancelRelease_of_high (hp : sd.cfg.Threshold ≤ p) :
    cancelRelease sd p = { sd with tempEnd := 0 } := by
  unfold cancelRelease
  split_ifs with h
  · rfl
  · cases sd
    simp_all

theorem startSpeech_of_low (hp : ¬ sd.cfg.Threshold ≤ p) :
    startSpeech sd p b = (SpeechEvent.empty, sd) := by
  unfold startSpeech
  rw [if_neg]
  tauto

theorem startSpeech_of_triggered (ht : sd.triggered = true) :
    startSpeech sd p b = (SpeechEvent.empty, sd) := by
  unfold startSpeech
  rw [if_neg]
  simp [ht]

theorem startSpeech_fire (hp : sd.cfg.Threshold ≤ p) (ht : sd.triggered = false) :
    startSpeech sd p b =
      ({ SpeechEvent.empty with hasStart := true, startAt := startTimestamp sd b },
       { sd with
          triggered := true, pendingStart := startTimestamp sd b,
          pendingStartValid := true }) := by
  unfold startSpeech startTimestamp
  rw [if_pos (by simp [hp, ht])]

theorem endSpeech_of_not_dip (hp : ¬ p < sd.cfg.Threshold - 0.15) :
    endSpeech sd ev p a b = (.ok ev, sd) := by
  unfold endSpeech
  rw [if_neg]
  tauto

theorem endSpeech_of_not_triggered (ht : sd.triggered = false) :
    endSpeech sd ev p a b = (.ok ev, sd) := by
  unfold endSpeech
  rw [if_neg]
  simp [ht]

theorem endSpeech_wait (ht : sd.triggered = true) (hp : p < sd.cfg.Threshold - 0.15)
    (hw : sd.currSample - releasePoint sd < a) :
    endSpeech sd ev p a b = (.ok ev, { sd with tempEnd := releasePoint sd }) := by
  obtain ⟨c, st, w, ib, ps, pv, sb, cu, tr, te⟩ := sd
  simp only [endSpeech, releasePoint] at hw ⊢
  rw [if_pos ⟨hp, ht⟩]
  split_ifs at hw ⊢ <;> simp_all

theorem endSpeech_fin (ht : sd.triggered = true) (hp : p < sd.cfg.Threshold - 0.15)
    (hw : a ≤ sd.currSample - releasePoint sd) (hv : sd.pendingStartValid = true) :
    endSpeech sd ev p a b =
      (.ok { ev with
              hasEnd := true,
              endAt := ((releasePoint sd + b : ℤ) : ℚ) / ((sd.cfg.SampleRate : ℤ) : ℚ),
              endStartAt := sd.pendingStart },
       { sd with tempEnd := 0, triggered := false, pendingStartValid := false }) := by
  obtain ⟨c, st, w, ib, ps, pv, sb, cu, tr, te⟩ := sd
  simp only [endSpeech, releasePoint] at hw ⊢
  rw [if_pos ⟨hp, ht⟩]
  split_ifs at hw ⊢ <;> simp_all <;> omega

theorem endSpeech_fin_invalid (ht : sd.triggered = true) (hp : p < sd.cfg.Threshold - 0.15)
    (hw : a ≤ sd.currSample - releasePoint sd) (hv : sd.pendingStartValid = false) :
    endSpeech sd ev p a b =
      (.error "unexpected speech end", { sd with tempEnd := 0, triggered := false }) := by
  obtain ⟨c, st, w, ib, ps, pv, sb, cu, tr, te⟩ := sd
  simp only [endSpeech, releasePoint] at hw ⊢
  rw [if_pos ⟨hp, ht⟩]
  split_ifs at hw ⊢ <;> simp_all <;> omega

theorem advanceSpeech_low_of_notTriggered (ht : sd.triggered = false)
    (hp : ¬ sd.cfg.Threshold ≤ p) :
    advanceSpeech sd p a b = (.ok SpeechEvent.empty, sd) := by
  simp only [advanceSpeech]
  rw [cancelRelease_of_low sd p hp, startSpeech_of_low sd p b hp]
  exact endSpeech_of_not_triggered sd SpeechEvent.empty p a b ht

theorem advanceSpeech_start (ht : sd.triggered = false) (hp : sd.cfg.Threshold ≤ p) :
    advanceSpeech sd p a b =
      (.ok { SpeechEvent.empty with hasStart := true, startAt := startTimestamp sd b },
       { sd with
          tempEnd := 0, triggered := true, pendingStart := startTimestamp sd b,
          pendingStartValid := true }) := by
  have hnd : ¬ p < sd.cfg.Threshold - 0.15 := by intro h; nlinarith
  obtain ⟨c, st, w, ib, ps, pv, sb, cu, tr, te⟩ := sd
  dsimp only at ht hp hnd ⊢
  simp only [advanceSpeech]
  rw [cancelRelease_of_high _ p hp]
  dsimp only
  rw [startSpeech_fire _ p b hp ht]
  dsimp only
  rw [endSpeech_of_not_dip _ _ p a b hnd]
  simp [startTimestamp]

theorem advanceSpeech_high_of_triggered (ht : sd.triggered = true)
    (hp : sd.cfg.Threshold ≤ p) :
    advanceSpeech sd p a b = (.ok SpeechEvent.empty, { sd with tempEnd := 0 }) := by
  have hnd : ¬ p < sd.cfg.Threshold - 0.15 := by intro h; nlinarith
  obtain ⟨c, st, w, ib, ps, pv, sb, cu, tr, te⟩ := sd
  dsimp only at ht hp hnd ⊢
  simp only [advanceSpeech]
  rw [cancelRelease_of_high _ p hp]
  dsimp only
  rw [startSpeech_of_triggered _ p b ht]
  dsimp only
  exact endSpeech_of_not_dip _ _ p a b hnd

theorem advanceSpeech_mid_of_triggered (ht : sd.triggered = true)
    (hp : ¬ sd.cfg.Threshold ≤ p) (hp2 : ¬ p < sd.cfg.Threshold - 0.15) :
    advanceSpeech sd p a b = (.ok SpeechEvent.empty, sd) := by
  simp only [advanceSpeech]
  rw [cancelRelease_of_low sd p hp, startSpeech_of_triggered sd p b ht]
  exact endSpeech_of_not_dip sd SpeechEvent.empty p a b hp2

theorem advanceSpeech_dip_wait (ht : sd.triggered = true)
    (hp : p < sd.cfg.Threshold - 0.15) (hw : sd.currSample - releasePoint sd < a) :
    advanceSpeech sd p a b = (.ok SpeechEvent.empty, { sd with tempEnd := releasePoint sd }) := by
  have hple : ¬ sd.cfg.Threshold ≤ p := by intro h; nlinarith
  simp only [advanceSpeech]
  rw [cancelRelease_of_low sd p hple, startSpeech_of_triggered sd p b ht]
  exact endSpeech_wait sd SpeechEvent.empty p a b ht hp hw

theorem advanceSpeech_dip_end (ht : sd.triggered = true)
    (hp : p < sd.cfg.Threshold - 0.15) (hw : a ≤ sd.currSample - releasePoint sd)
    (hv : sd.pendingStartValid = true) :
    advanceSpeech sd p a b =
      (.ok { SpeechEvent.empty with
              hasEnd := true,
              endAt := ((releasePoint sd + b : ℤ) : ℚ) / ((sd.cfg.SampleRate : ℤ) : ℚ),
              endStartAt := sd.pendingStart },
       { sd with tempEnd := 0, triggered := false, pendingStartValid := false }) := by
  have hple : ¬ sd.cfg.Threshold ≤ p := by intro h; nlinarith
  simp only [advanceSpeech]
  rw [cancelRelease_of_low sd p hple, startSpeech_of_triggered sd p b ht]
  exact endSpeech_fin sd SpeechEvent.empty p a b ht hp hw hv

theorem advanceSpeech_dip_end_invalid (ht : sd.triggered = true)
    (hp : p < sd.cfg.Threshold - 0.15) (hw : a ≤ sd.currSample - releasePoint sd)
    (hv : sd.pendingStartValid = false) :
    advanceSpeech sd p a b =
      (.error "unexpected speech end", { sd with tempEnd := 0, triggered := false }) := by
  have hple : ¬ sd.cfg.Threshold ≤ p := by intro h; nlinarith
  simp only [advanceSpeech]
  rw [cancelRelease_of_low sd p hple, startSpeech_of_triggered sd p b ht]
  exact endSpeech_fin_invalid sd SpeechEvent.empty p a b ht hp hw hv

end AdvanceSpeechLemmas

/-- The exact list handed to the inference engine: the kept context followed
by the new window. -/
def inferInput (sd : Detector) (samples : List ℚ) : List ℚ :=
  sd.inputBuf.take contextLen ++ samples

/-- The detector state after a successful `Infer` of `samples` followed by
the `currSample` advancement of `processWindow`. -/
def coreStep (m : InferenceModel) (sd : Detector) (samples : List ℚ) : Detector :=
  { sd with
      state := (m (inferInput sd samples) sd.state).2,
      inputBuf := (inferInput sd samples).drop sd.windowSize ++ samples,
      currSample := sd.currSample + (sd.windowSize : ℤ) }

section InferLemmas

variable (m : InferenceModel) (sd : Detector) (samples : List ℚ) (a b : ℤ)

theorem fixWindowSize_of_ne (h : sd.windowSize ≠ 0) : sd.fixWindowSize = sd := by
  unfold Detector.fixWindowSize
  rw [if_neg h]

theorem Infer_mismatch (h0 : sd.windowSize ≠ 0) (h : samples.length ≠ sd.windowSize) :
    Infer m sd samples = { prob := 0, err := some "invalid samples length", sd := sd } := by
  simp only [Infer]
  rw [fixWindowSize_of_ne sd h0, if_pos h]

theorem Infer_ok (h0 : sd.windowSize ≠ 0) (hlen : samples.length = sd.windowSize)
    (hbuf : sd.inputBuf.length = contextLen + sd.windowSize) :
    Infer m sd samples =
      { prob := (m (inferInput sd samples) sd.state).1,
        err := none,
        sd := { sd with
                 state := (m (inferInput sd samples) sd.state).2,
                 inputBuf := (inferInput sd samples).drop sd.windowSize ++ samples } } := by
  have htake : (sd.inputBuf.take contextLen).length = contextLen := by
    simp only [List.length_take]
    omega
  simp only [Infer, inferInput]
  rw [fixWindowSize_of_ne sd h0, if_neg (not_not_intro hlen), if_neg (not_not_intro hbuf)]
  rw [List.drop_left' htake]

theorem processWindow_ok (h0 : sd.windowSize ≠ 0) (hlen : samples.length = sd.windowSize)
    (hbuf : sd.inputBuf.length = contextLen + sd.windowSize) :
    processWindow m sd samples a b =
      advanceSpeech (coreStep m sd samples) ((m (inferInput sd samples) sd.state).1) a b := by
  simp only [processWindow, coreStep]
  rw [Infer_ok m sd samples h0 hlen hbuf]

theorem processWindow_mismatch (h0 : sd.windowSize ≠ 0) (h : samples.length ≠ sd.windowSize) :
    processWindow m sd samples a b =
      (.error "infer failed: invalid samples length", sd) := by
  simp only [processWindow]
  rw [Infer_mismatch m sd samples h0 h]
  rfl

end InferLemmas

/-- Replacing only the carry-over buffer of a detector. -/
def Detector.setBuf (sd : Detector) (x : List ℚ) : Detector := { sd with streamBuf := x }

section FrameLemmas

variable (m : InferenceModel) (sd : Detector) (x w samples : List ℚ) (ev : SpeechEvent)
variable (p : ℚ) (a b : ℤ)

theorem cancelRelease_setBuf :
    cancelRelease (sd.setBuf x) p = (cancelRelease sd p).setBuf x := by
  cases sd
  simp only [cancelRelease, Detector.setBuf]
  split_ifs <;> rfl

theorem startSpeech_setBuf :
    startSpeech (sd.setBuf x) p b =
      ((startSpeech sd p b).1, ((startSpeech sd p b).2).setBuf x) := by
  cases sd
  simp only [startSpeech, Detector.setBuf]
  split_ifs <;> rfl

theorem endSpeech_setBuf :
    endSpeech (sd.setBuf x) ev p a b =
      ((endSpeech sd ev p a b).1, ((endSpeech sd ev p a b).2).setBuf x) := by
  cases sd
  simp only [endSpeech, Detector.setBuf]
  split_ifs <;> rfl

theorem advanceSpeech_setBuf :
    advanceSpeech (sd.setBuf x) p a b =
      ((advanceSpeech sd p a b).1, ((advanceSpeech sd p a b).2).setBuf x) := by
  simp only [advanceSpeech]
  rw [cancelRelease_setBuf sd x p, startSpeech_setBuf (cancelRelease sd p) x p b]
  exact endSpeech_setBuf (startSpeech (cancelRelease sd p) p b).2 x
    (startSpeech (cancelRelease sd p) p b).1 p a b

theorem Infer_setBuf :
    Infer m (sd.setBuf x) samples =
      { prob := (Infer m sd samples).prob, err := (Infer m sd samples).err,
        sd := ((Infer m sd samples).sd).setBuf x } := by
  cases sd
  simp only [Infer, Detector.fixWindowSize, Detector.setBuf]
  split_ifs <;> rfl

theorem processWindow_setBuf :
    processWindow m (sd.setBuf x) w a b =
      ((processWindow m sd w a b).1, ((processWindow m sd w a b).2).setBuf x) := by
  simp only [processWindow]
  rw [Infer_setBuf m sd x w]
  rcases hE : (Infer m sd w).err with _ | e
  · simp only [Detector.setBuf]
    exact advanceSpeech_setBuf
      { (Infer m sd w).sd with
          currSample := (Infer m sd w).sd.currSample + ((Infer m sd w).sd.windowSize : ℤ) }
      x (Infer m sd w).prob a b
  · rfl

end FrameLemmas

/-- The complete, non-overlapping windows extracted from the front of a
sample sequence (the common traversal of the `Detect` and `DetectStream`
loops). -/
def windows (ws : ℕ) (pcm : List ℚ) : List (List ℚ) :=
  if h : 0 < ws ∧ ws ≤ pcm.length then pcm.take ws :: windows ws (pcm.drop ws) else []
termination_by pcm.length
decreasing_by
  simp only [List.length_drop]
  omega

/-- The partial trailing remainder left after extracting `windows`. -/
def remTail (ws : ℕ) (pcm : List ℚ) : List ℚ :=
  if h : 0 < ws ∧ ws ≤ pcm.length then remTail ws (pcm.drop ws) else pcm
termination_by pcm.length
decreasing_by
  simp only [List.length_drop]
  omega

/-- Processing a list of windows in order, collecting the emitted events
(stopping at the first error, as both loops do). -/
def runEvents (m : InferenceModel) (a b : ℤ) :
    Detector → List (List ℚ) → Except String (List SpeechEvent) × Detector
  | sd, [] => (.ok [], sd)
  | sd, w :: ws =>
    match processWindow m sd w a b with
    | (.error e, sd) => (.error e, sd)
    | (.ok ev, sd) =>
      match runEvents m a b sd ws with
      | (.error e, sd) => (.error e, sd)
      | (.ok evs, sd) => (.ok (ev :: evs), sd)

theorem runEvents_setBuf (m : InferenceModel) (a b : ℤ) (wins : List (List ℚ)) :
    ∀ (sd : Detector) (x : List ℚ),
      runEvents m a b (sd.setBuf x) wins =
        ((runEvents m a b sd wins).1, ((runEvents m a b sd wins).2).setBuf x) := by
  induction wins with
  | nil => intro sd x; rfl
  | cons w ws ih =>
    intro sd x
    simp only [runEvents]
    rw [processWindow_setBuf m sd x w a b]
    rcases hP : processWindow m sd w a b with ⟨r, sd2⟩
    rcases r with e | ev
    · rfl
    · dsimp only
      rw [ih sd2 x]
      rcases hR : runEvents m a b sd2 ws with ⟨r2, sd3⟩
      rcases r2 with e | evs <;> rfl

section LoopUnfolding

variable (m : InferenceModel) (ws : ℕ) (a b : ℤ) (sd : Detector) (pcm : List ℚ)

theorem windows_step (h : 0 < ws ∧ ws ≤ pcm.length) :
    windows ws pcm = pcm.take ws :: windows ws (pcm.drop ws) := by
  rw [windows]
  exact dif_pos h

theorem windows_stop (h : ¬(0 < ws ∧ ws ≤ pcm.length)) : windows ws pcm = [] := by
  rw [windows]
  exact dif_neg h

theorem remTail_step (h : 0 < ws ∧ ws ≤ pcm.length) :
    remTail ws pcm = remTail ws (pcm.drop ws) := by
  rw [remTail]
  exact dif_pos h

theorem remTail_stop (h : ¬(0 < ws ∧ ws ≤ pcm.length)) : remTail ws pcm = pcm := by
  rw [remTail]
  exact dif_neg h

theorem detectLoop_step (segs : List Segment) (h : 0 < ws ∧ ws ≤ pcm.length) :
    detectLoop m ws a b sd pcm segs =
      (match processWindow m sd (pcm.take ws) a b with
       | (.error e, sd) => (.error e, sd)
       | (.ok event, sd) =>
         detectLoop m ws a b sd (pcm.drop ws) (appendBatchEvent segs event)) := by
  rw [detectLoop]
  exact dif_pos h

theorem detectLoop_stop (segs : List Segment) (h : ¬(0 < ws ∧ ws ≤ pcm.length)) :
    detectLoop m ws a b sd pcm segs = (.ok segs, sd) := by
  rw [detectLoop]
  exact dif_neg h

theorem streamLoop_step (segs : List Segment) (h : 0 < ws ∧ ws ≤ pcm.length) :
    streamLoop m ws a b sd pcm segs =
      (match processWindow m sd (pcm.take ws) a b with
       | (.error e, sd) => (.error e, sd)
       | (.ok event, sd) =>
         streamLoop m ws a b sd (pcm.drop ws) (appendStreamEvent segs event)) := by
  rw [streamLoop]
  exact dif_pos h

theorem streamLoop_stop (segs : List Segment) (h : ¬(0 < ws ∧ ws ≤ pcm.length)) :
    streamLoop m ws a b sd pcm segs =
      (.ok segs, if pcm.length ≠ 0 then { sd with streamBuf := sd.streamBuf ++ pcm } else sd) := by
  rw [streamLoop]
  exact dif_neg h

end LoopUnfolding

theorem detectLoop_eq (m : InferenceModel) (ws : ℕ) (a b : ℤ) :
    ∀ (n : ℕ) (pcm : List ℚ), pcm.length ≤ n → ∀ (sd : Detector) (segs : List Segment),
      detectLoop m ws a b sd pcm segs =
        (match runEvents m a b sd (windows ws pcm) with
         | (.error e, sd) => (.error e, sd)
         | (.ok evs, sd) => (.ok (evs.foldl appendBatchEvent segs), sd)) := by
  intro n
  induction n with
  | zero =>
    intro pcm hn sd segs
    have hp : ¬(0 < ws ∧ ws ≤ pcm.length) := by omega
    rw [detectLoop_stop m ws a b sd pcm segs hp, windows_stop ws pcm hp]
    rfl
  | succ n ih =>
    intro pcm hn sd segs
    by_cases h : 0 < ws ∧ ws ≤ pcm.length
    · rw [detectLoop_step m ws a b sd pcm segs h, windows_step ws pcm h]
      simp only [runEvents]
      rcases hP : processWindow m sd (pcm.take ws) a b with ⟨r, sd2⟩
      rcases r with e | ev
      · rfl
      · dsimp only
        rw [ih (pcm.drop ws) (by simp only [List.length_drop]; omega) sd2
          (appendBatchEvent segs ev)]
        rcases hR : runEvents m a b sd2 (windows ws (pcm.drop ws)) with ⟨r2, sd3⟩
        rcases r2 with e | evs <;> rfl
    · rw [detectLoop_stop m ws a b sd pcm segs h, windows_stop ws pcm h]
      rfl

theorem streamLoop_eq (m : InferenceModel) (ws : ℕ) (a b : ℤ) :
    ∀ (n : ℕ) (pcm : List ℚ), pcm.length ≤ n → ∀ (sd : Detector) (segs : List Segment),
      streamLoop m ws a b sd pcm segs =
        (match runEvents m a b sd (windows ws pcm) with
         | (.error e, sd) => (.error e, sd)
         | (.ok evs, sd) =>
           (.ok (evs.foldl appendStreamEvent segs),
            if (remTail ws pcm).length ≠ 0 then
              { sd with streamBuf := sd.streamBuf ++ remTail ws pcm }
            else sd)) := by
  intro n
  induction n with
  | zero =>
    intro pcm hn sd segs
    have hp : ¬(0 < ws ∧ ws ≤ pcm.length) := by omega
    rw [streamLoop_stop m ws a b sd pcm segs hp, windows_stop ws pcm hp,
      remTail_stop ws pcm hp]
    rfl
  | succ n ih =>
    intro pcm hn sd segs
    by_cases h : 0 < ws ∧ ws ≤ pcm.length
    · rw [streamLoop_step m ws a b sd pcm segs h, windows_step ws pcm h,
        remTail_step ws pcm h]
      simp only [runEvents]
      rcases hP : processWindow m sd (pcm.take ws) a b with ⟨r, sd2⟩
      rcases r with e | ev
      · rfl
      · dsimp only
        rw [ih (pcm.drop ws) (by simp only [List.length_drop]; omega) sd2
          (appendStreamEvent segs ev)]
        rcases hR : runEvents m a b sd2 (windows ws (pcm.drop ws)) with ⟨r2, sd3⟩
        rcases r2 with e | evs <;> rfl
    · rw [streamLoop_stop m ws a b sd pcm segs h, windows_stop ws pcm h,
        remTail_stop ws pcm h]
      rfl

theorem Detect_eq (m : InferenceModel) (sd : Detector) (pcm : List ℚ)
    (h0 : sd.windowSize ≠ 0) (hge : sd.windowSize ≤ pcm.length) :
    Detect m sd pcm =
      (match runEvents m (minSilenceSamplesOf sd) (speechPadSamplesOf sd) sd
          (windows sd.windowSize pcm) with
       | (.error e, sd) => (.error e, sd)
       | (.ok evs, sd) => (.ok (evs.foldl appendBatchEvent []), sd)) := by
  simp only [Detect]
  rw [fixWindowSize_of_ne sd h0, if_neg (by omega)]
  exact detectLoop_eq m sd.windowSize (minSilenceSamplesOf sd) (speechPadSamplesOf sd)
    pcm.length pcm le_rfl sd []

section BufferIdentities

variable (m : InferenceModel) (sd : Detector) (x y w : List ℚ) (a b : ℤ)

theorem setBuf_setBuf : (sd.setBuf x).setBuf y = sd.setBuf y := by
  cases sd
  rfl

theorem setBuf_self : sd.setBuf sd.streamBuf = sd := by
  cases sd
  rfl

theorem processWindow_streamBuf :
    ((processWindow m sd w a b).2).streamBuf = sd.streamBuf := by
  conv_lhs => rw [← setBuf_self sd]
  rw [processWindow_setBuf]
  rfl

theorem runEvents_streamBuf (wins : List (List ℚ)) :
    ((runEvents m a b sd wins).2).streamBuf = sd.streamBuf := by
  conv_lhs => rw [← setBuf_self sd]
  rw [runEvents_setBuf]
  rfl

theorem windows_cons (ws : ℕ) (W rest : List ℚ) (hws : 0 < ws) (hW : W.length = ws) :
    windows ws (W ++ rest) = W :: windows ws rest := by
  rw [windows_step ws (W ++ rest) ⟨hws, by simp [hW]⟩, List.take_left' hW, List.drop_left' hW]

theorem remTail_cons (ws : ℕ) (W rest : List ℚ) (hws : 0 < ws) (hW : W.length = ws) :
    remTail ws (W ++ rest) = remTail ws rest := by
  rw [remTail_step ws (W ++ rest) ⟨hws, by simp [hW]⟩, List.drop_left' hW]

end BufferIdentities

theorem DetectStream_eq (m : InferenceModel) (sd : Detector) (pcm : List ℚ)
    (h0 : sd.windowSize ≠ 0) (hlt : sd.streamBuf.length < sd.windowSize)
    (evs : List SpeechEvent) (sd2 : Detector)
    (hrun : runEvents m (minSilenceSamplesOf sd) (speechPadSamplesOf sd) (sd.setBuf [])
        (windows sd.windowSize (sd.streamBuf ++ pcm)) = (.ok evs, sd2)) :
    DetectStream m sd pcm =
      (.ok (evs.foldl appendStreamEvent []),
       sd2.setBuf (remTail sd.windowSize (sd.streamBuf ++ pcm))) := by
  have hbuf2 : sd2.streamBuf = [] := by
    have hc := congrArg (fun t => t.2.streamBuf) hrun
    dsimp only at hc
    rw [runEvents_streamBuf] at hc
    exact hc.symm
  simp only [DetectStream]
  by_cases hpcm : pcm.length = 0
  · have hnil : pcm = [] := List.length_eq_zero.mp hpcm
    subst hnil
    rw [if_pos hpcm]
    have hw : ¬(0 < sd.windowSize ∧ sd.windowSize ≤ (sd.streamBuf ++ ([] : List ℚ)).length) := by
      simp only [List.length_append, List.length_nil]
      omega
    rw [windows_stop _ _ hw] at hrun
    simp only [runEvents] at hrun
    have h1 : evs = [] := by
      have := congrArg Prod.fst hrun
      simpa using this.symm
    have h2 : sd2 = sd.setBuf [] := (congrArg Prod.snd hrun).symm
    subst h1
    subst h2
    rw [remTail_stop _ _ hw, setBuf_setBuf, List.append_nil, setBuf_self]
    rfl
  · rw [if_neg hpcm, fixWindowSize_of_ne sd h0]
    by_cases hsb : 0 < sd.streamBuf.length
    · rw [if_pos hsb]
      by_cases hlen : pcm.length < sd.windowSize - sd.streamBuf.length
      · rw [if_pos hlen]
        have hw : ¬(0 < sd.windowSize ∧ sd.windowSize ≤ (sd.streamBuf ++ pcm).length) := by
          simp only [List.length_append]
          omega
        rw [windows_stop _ _ hw] at hrun
        simp only [runEvents] at hrun
        rw [remTail_stop _ _ hw]
        have h1 : Except.ok (ε := String) ([] : List SpeechEvent) = .ok evs := congrArg Prod.fst hrun
        have h2 : sd.setBuf [] = sd2 := congrArg Prod.snd hrun
        cases h1
        rw [← h2, setBuf_setBuf]
        rfl
      · rw [if_neg hlen]
        set needed := sd.windowSize - sd.streamBuf.length with hneed
        have hWlen : (sd.streamBuf ++ pcm.take needed).length = sd.windowSize := by
          simp only [List.length_append, List.length_take]
          omega
        have hsplit : sd.streamBuf ++ pcm = (sd.streamBuf ++ pcm.take needed) ++ pcm.drop needed := by
          rw [List.append_assoc, List.take_append_drop]
        rw [hsplit, windows_cons _ _ _ (by omega) hWlen] at hrun
        rw [hsplit, remTail_cons _ _ _ (by omega) hWlen]
        simp only [runEvents] at hrun
        rw [processWindow_setBuf] at hrun
        have hGoalA : ({ sd with streamBuf := sd.streamBuf ++ pcm.take needed } : Detector) =
            sd.setBuf (sd.streamBuf ++ pcm.take needed) := rfl
        rw [hGoalA, processWindow_setBuf]
        rcases hP : processWindow m sd (sd.streamBuf ++ pcm.take needed)
            (minSilenceSamplesOf sd) (speechPadSamplesOf sd) with ⟨r, sdB⟩
        rcases r with e | ev
        · rw [hP] at hrun
          simp only at hrun
          exact absurd (congrArg Prod.fst hrun) (by simp)
        · rw [hP] at hrun
          dsimp only at hrun ⊢
          rw [runEvents_setBuf] at hrun
          rcases hR : runEvents m (minSilenceSamplesOf sd) (speechPadSamplesOf sd) sdB
              (windows sd.windowSize (pcm.drop needed)) with ⟨r2, sd3⟩
          rw [hR] at hrun
          rcases r2 with e | evs2
          · exact absurd (congrArg Prod.fst hrun) (by simp)
          · dsimp only at hrun
            have hEvs : evs = ev :: evs2 := by
              have := congrArg Prod.fst hrun
              simpa using this.symm
            have hSd2 : sd2 = sd3.setBuf [] := (congrArg Prod.snd hrun).symm
            have hStep : ((sdB.setBuf (sd.streamBuf ++ pcm.take needed)).setBuf []) = sdB.setBuf [] :=
              setBuf_setBuf sdB _ []
            have hB : ({ sdB.setBuf (sd.streamBuf ++ pcm.take needed) with streamBuf := ([] : List ℚ) } : Detector) =
                sdB.setBuf [] := hStep
            rw [hB]
            rw [streamLoop_eq m sd.windowSize (minSilenceSamplesOf sd) (speechPadSamplesOf sd)
              (pcm.drop needed).length (pcm.drop needed) le_rfl (sdB.setBuf [])
              (appendStreamEvent [] ev)]
            rw [runEvents_setBuf, hR]
            dsimp only
            subst hEvs hSd2
            rw [setBuf_setBuf]
            by_cases hr : (remTail sd.windowSize (pcm.drop needed)).length ≠ 0
            · rw [if_pos hr]
              rfl
            · rw [if_neg hr]
              push_neg at hr
              have hre : remTail sd.windowSize (pcm.drop needed) = [] := List.length_eq_zero.mp hr
              rw [hre]
              rfl
    · rw [if_neg hsb]
      have hsbnil : sd.streamBuf = [] := by
        cases hsb' : sd.streamBuf
        · rfl
        · rw [hsb'] at hsb
          simp at hsb
      have hsdfix : sd.setBuf [] = sd := by
        conv_rhs => rw [← setBuf_self sd]
        rw [hsbnil]
      rw [hsbnil] at hrun
      rw [hsdfix] at hrun
      simp only [List.nil_append] at hrun
      rw [streamLoop_eq m sd.windowSize (minSilenceSamplesOf sd) (speechPadSamplesOf sd)
        pcm.length pcm le_rfl sd [], hrun]
      dsimp only
      rw [hsbnil, List.nil_append]
      by_cases hr : (remTail sd.windowSize pcm).length ≠ 0
      · rw [if_pos hr]
        rw [hbuf2, List.nil_append]
        rfl
      · rw [if_neg hr]
        push_neg at hr
        have h3 : remTail sd.windowSize pcm = [] := List.length_eq_zero.mp hr
        rw [h3]
        conv_lhs => rw [← setBuf_self sd2]
        rw [hbuf2]

theorem triggered_false_of_not (sd : Detector) (h : ¬ sd.triggered = true) :
    sd.triggered = false := by
  simpa using h

/-- Under the trigger invariant (`triggered → pendingStartValid`) the
hysteresis trigger never reaches its defensive error branch, and the shape
of its state changes and of the emitted end timestamp are as follows. -/
theorem advanceSpeech_ok (sd : Detector) (p : ℚ) (a b : ℤ)
    (htr : sd.triggered = true → sd.pendingStartValid = true) :
    ∃ ev sd2, advanceSpeech sd p a b = (.ok ev, sd2) ∧
      sd2.cfg = sd.cfg ∧ sd2.windowSize = sd.windowSize ∧ sd2.inputBuf = sd.inputBuf ∧
      sd2.state = sd.state ∧ sd2.streamBuf = sd.streamBuf ∧ sd2.currSample = sd.currSample ∧
      (sd2.triggered = true → sd2.pendingStartValid = true) ∧
      (sd2.tempEnd = 0 ∨ sd2.tempEnd = sd.currSample ∨ sd2.tempEnd = sd.tempEnd) ∧
      (ev.hasEnd = true →
        ∃ t : ℤ, (t = sd.currSample ∨ (t = sd.tempEnd ∧ sd.tempEnd ≠ 0)) ∧
          ev.endAt = ((t + b : ℤ) : ℚ) / ((sd.cfg.SampleRate : ℤ) : ℚ)) := by
  by_cases ht : sd.triggered = true
  · by_cases hp : sd.cfg.Threshold ≤ p
    · refine ⟨SpeechEvent.empty, _, advanceSpeech_high_of_triggered sd p a b ht hp,
        rfl, rfl, rfl, rfl, rfl, rfl, htr, Or.inl rfl, ?_⟩
      intro h
      simp [SpeechEvent.empty] at h
    · by_cases hp2 : p < sd.cfg.Threshold - 0.15
      · by_cases hw : sd.currSample - releasePoint sd < a
        · refine ⟨SpeechEvent.empty, _, advanceSpeech_dip_wait sd p a b ht hp2 hw,
            rfl, rfl, rfl, rfl, rfl, rfl, htr, ?_, ?_⟩
          · unfold releasePoint
            split_ifs with h
            · exact Or.inr (Or.inl rfl)
            · exact Or.inr (Or.inr rfl)
          · intro h
            simp [SpeechEvent.empty] at h
        · refine ⟨_, _, advanceSpeech_dip_end sd p a b ht hp2 (by omega) (htr ht),
            rfl, rfl, rfl, rfl, rfl, rfl, by simp, Or.inl rfl, ?_⟩
          intro _
          refine ⟨releasePoint sd, ?_, rfl⟩
          unfold releasePoint
          split_ifs with h
          · exact Or.inl rfl
          · exact Or.inr ⟨rfl, h⟩
      · refine ⟨SpeechEvent.empty, _, advanceSpeech_mid_of_triggered sd p a b ht hp hp2,
          rfl, rfl, rfl, rfl, rfl, rfl, htr, Or.inr (Or.inr rfl), ?_⟩
        intro h
        simp [SpeechEvent.empty] at h
  · have ht' : sd.triggered = false := triggered_false_of_not sd ht
    by_cases hp : sd.cfg.Threshold ≤ p
    · refine ⟨_, _, advanceSpeech_start sd p a b ht' hp,
        rfl, rfl, rfl, rfl, rfl, rfl, by simp, Or.inl rfl, ?_⟩
      intro h
      simp [SpeechEvent.empty] at h
    · refine ⟨SpeechEvent.empty, _, advanceSpeech_low_of_notTriggered sd p a b ht' hp,
        rfl, rfl, rfl, rfl, rfl, rfl, htr, Or.inr (Or.inr rfl), ?_⟩
      intro h
      simp [SpeechEvent.empty] at h

/-- Window processing under the trigger invariant: no error is possible,
the carry-over buffer, configuration and window size are untouched,
`currSample` advances by exactly one window, and any emitted end timestamp
is positive when the padding is non-negative. -/
theorem runEvents_ok (m : InferenceModel) (a b : ℤ) (hb : 0 ≤ b) :
    ∀ (wins : List (List ℚ)) (sd : Detector),
      sd.windowSize ≠ 0 →
      sd.inputBuf.length = contextLen + sd.windowSize →
      (sd.triggered = true → sd.pendingStartValid = true) →
      0 ≤ sd.currSample →
      (sd.tempEnd ≠ 0 → 0 < sd.tempEnd) →
      0 < sd.cfg.SampleRate →
      (∀ w ∈ wins, w.length = sd.windowSize) →
      ∃ evs sd2, runEvents m a b sd wins = (.ok evs, sd2) ∧
        sd2.cfg = sd.cfg ∧ sd2.windowSize = sd.windowSize ∧
        sd2.inputBuf.length = contextLen + sd2.windowSize ∧
        sd2.streamBuf = sd.streamBuf ∧
        (sd2.triggered = true → sd2.pendingStartValid = true) ∧
        0 ≤ sd2.currSample ∧ (sd2.tempEnd ≠ 0 → 0 < sd2.tempEnd) ∧
        (∀ ev ∈ evs, ev.hasEnd = true → 0 < ev.endAt) := by
  intro wins
  induction wins with
  | nil =>
    intro sd h0 hib htr hcur htemp hrate _
    exact ⟨[], sd, rfl, rfl, rfl, hib, rfl, htr, hcur, htemp, by simp⟩
  | cons w ws ih =>
    intro sd h0 hib htr hcur htemp hrate hwin
    have hwlen : w.length = sd.windowSize := hwin w (by simp)
    have hwspos : (0 : ℤ) < (sd.windowSize : ℤ) := by
      exact_mod_cast Nat.pos_of_ne_zero h0
    have hiblen : (inferInput sd w).length = contextLen + sd.windowSize := by
      simp only [inferInput, List.length_append, List.length_take, hwlen]
      omega
    obtain ⟨ev, sdB, hAdv, hcfg, hws, hibB, hstB, hsbB, hcurB, htrB, htempB, hEndB⟩ :=
      advanceSpeech_ok (coreStep m sd w) ((m (inferInput sd w) sd.state).1) a b htr
    have hCore : processWindow m sd w a b = (.ok ev, sdB) := by
      rw [processWindow_ok m sd w a b h0 hwlen hib]
      exact hAdv
    have hwsB : sdB.windowSize = sd.windowSize := hws
    have hcfgB : sdB.cfg = sd.cfg := hcfg
    have hsbB2 : sdB.streamBuf = sd.streamBuf := hsbB
    have hcurB2 : sdB.currSample = sd.currSample + (sd.windowSize : ℤ) := hcurB
    have hibB2 : sdB.inputBuf = (inferInput sd w).drop sd.windowSize ++ w := hibB
    have hibBlen : sdB.inputBuf.length = contextLen + sdB.windowSize := by
      rw [hibB2, hwsB]
      simp only [List.length_append, List.length_drop, hiblen, hwlen]
      omega
    have hcurBpos : 0 < sdB.currSample := by
      rw [hcurB2]
      omega
    have htempB2 : sdB.tempEnd = 0 ∨ sdB.tempEnd = sd.currSample + (sd.windowSize : ℤ) ∨
        sdB.tempEnd = sd.tempEnd := htempB
    have htempBpos : sdB.tempEnd ≠ 0 → 0 < sdB.tempEnd := by
      intro hne
      rcases htempB2 with h | h | h
      · exact absurd h hne
      · rw [h]
        omega
      · rw [h] at hne ⊢
        exact htemp hne
    obtain ⟨evs, sd2, hRun, h2cfg, h2ws, h2ib, h2sb, h2tr, h2cur, h2temp, h2good⟩ :=
      ih sdB (by rw [hwsB]; exact h0) hibBlen htrB (le_of_lt hcurBpos) htempBpos
        (by rw [hcfgB]; exact hrate)
        (by intro u hu; rw [hwsB]; exact hwin u (List.mem_cons_of_mem w hu))
    refine ⟨ev :: evs, sd2, ?_, ?_, ?_, h2ib, ?_, h2tr, h2cur, h2temp, ?_⟩
    · simp only [runEvents]
      rw [hCore]
      dsimp only
      rw [hRun]
    · rw [h2cfg, hcfgB]
    · rw [h2ws, hwsB]
    · rw [h2sb, hsbB2]
    · intro e he hEnd
      rcases List.mem_cons.mp he with rfl | hmem
      · obtain ⟨t, hT, hAt⟩ := hEndB hEnd
        have hT2 : t = sd.currSample + (sd.windowSize : ℤ) ∨
            (t = sd.tempEnd ∧ sd.tempEnd ≠ 0) := hT
        have hAt2 : e.endAt = ((t + b : ℤ) : ℚ) / ((sd.cfg.SampleRate : ℤ) : ℚ) := hAt
        have hTpos : 0 < t := by
          rcases hT2 with h | ⟨h, hne⟩
          · rw [h]
            omega
          · rw [h]
            exact htemp hne
        rw [hAt2]
        apply div_pos
        · exact_mod_cast (show (0 : ℤ) < t + b by omega)
        · exact_mod_cast hrate
      · exact h2good e hmem hEnd

/-- The reachability invariant of a detector: established by `NewDetector`
and preserved by `Detect`, `DetectStream` and `Reset`. -/
structure Inv (sd : Detector) : Prop where
  ws0 : sd.windowSize = windowSizeForSampleRate sd.cfg.SampleRate
  sbuf : sd.streamBuf.length < sd.windowSize
  ibuf : sd.inputBuf.length = contextLen + sd.windowSize
  trig : sd.triggered = true → sd.pendingStartValid = true
  curr : 0 ≤ sd.currSample
  temp : sd.tempEnd ≠ 0 → 0 < sd.tempEnd
  rate : sd.cfg.SampleRate = 8000 ∨ sd.cfg.SampleRate = 16000
  msil : 0 ≤ sd.cfg.MinSilenceDurationMs
  pad : 0 ≤ sd.cfg.SpeechPadMs

theorem windowSizeForSampleRate_pos (r : ℤ) : 0 < windowSizeForSampleRate r := by
  unfold windowSizeForSampleRate
  split_ifs <;> norm_num

theorem Inv.wsPos {sd : Detector} (h : Inv sd) : 0 < sd.windowSize := by
  rw [h.ws0]
  exact windowSizeForSampleRate_pos _

theorem Inv.wsNe {sd : Detector} (h : Inv sd) : sd.windowSize ≠ 0 :=
  Nat.pos_iff_ne_zero.mp h.wsPos

theorem Inv.ratePos {sd : Detector} (h : Inv sd) : 0 < sd.cfg.SampleRate := by
  rcases h.rate with hr | hr <;> rw [hr] <;> norm_num

theorem Inv.padSamples {sd : Detector} (h : Inv sd) : 0 ≤ speechPadSamplesOf sd := by
  unfold speechPadSamplesOf
  exact Int.tdiv_nonneg (mul_nonneg h.pad (le_of_lt h.ratePos)) (by norm_num)

theorem Inv.setBufNil {sd : Detector} (h : Inv sd) : Inv (sd.setBuf []) where
  ws0 := h.ws0
  sbuf := by
    show ([] : List ℚ).length < sd.windowSize
    simpa using h.wsPos
  ibuf := h.ibuf
  trig := h.trig
  curr := h.curr
  temp := h.temp
  rate := h.rate
  msil := h.msil
  pad := h.pad

theorem windows_length (ws : ℕ) :
    ∀ (n : ℕ) (pcm : List ℚ), pcm.length ≤ n → ∀ w ∈ windows ws pcm, w.length = ws := by
  intro n
  induction n with
  | zero =>
    intro pcm hn w hw
    rw [windows_stop ws pcm (by omega)] at hw
    simp at hw
  | succ n ih =>
    intro pcm hn w hw
    by_cases hc : 0 < ws ∧ ws ≤ pcm.length
    · rw [windows_step ws pcm hc] at hw
      rcases List.mem_cons.mp hw with rfl | hmem
      · simp only [List.length_take]
        omega
      · exact ih (pcm.drop ws) (by simp only [List.length_drop]; omega) w hmem
    · rw [windows_stop ws pcm hc] at hw
      simp at hw

theorem remTail_length (ws : ℕ) (hws : 0 < ws) :
    ∀ (n : ℕ) (pcm : List ℚ), pcm.length ≤ n → (remTail ws pcm).length < ws := by
  intro n
  induction n with
  | zero =>
    intro pcm hn
    rw [remTail_stop ws pcm (by omega)]
    omega
  | succ n ih =>
    intro pcm hn
    by_cases hc : 0 < ws ∧ ws ≤ pcm.length
    · rw [remTail_step ws pcm hc]
      exact ih (pcm.drop ws) (by simp only [List.length_drop]; omega)
    · rw [remTail_stop ws pcm hc]
      omega

/-- `Detect` under the invariant: it never reaches the defensive
"unexpected speech end" error (its only error is the insufficient-input
check), and the invariant is preserved. -/
theorem Detect_inv (m : InferenceModel) (sd : Detector) (pcm : List ℚ) (hInv : Inv sd) :
    (∀ e, (Detect m sd pcm).1 = .error e → e = "not enough samples") ∧
      Inv (Detect m sd pcm).2 := by
  by_cases hge : sd.windowSize ≤ pcm.length
  · obtain ⟨evs, sdF, hRun, hcfg, hws, hib, hsb, htr, hcur, htemp, _⟩ :=
      runEvents_ok m (minSilenceSamplesOf sd) (speechPadSamplesOf sd) hInv.padSamples
        (windows sd.windowSize pcm) sd hInv.wsNe hInv.ibuf hInv.trig hInv.curr hInv.temp
        hInv.ratePos (windows_length sd.windowSize pcm.length pcm le_rfl)
    rw [Detect_eq m sd pcm hInv.wsNe hge, hRun]
    refine ⟨by simp, ?_⟩
    exact { ws0 := by rw [hws, hcfg]; exact hInv.ws0
            sbuf := by rw [hsb, hws]; exact hInv.sbuf
            ibuf := hib
            trig := htr
            curr := hcur
            temp := htemp
            rate := by rw [hcfg]; exact hInv.rate
            msil := by rw [hcfg]; exact hInv.msil
            pad := by rw [hcfg]; exact hInv.pad }
  · have : Detect m sd pcm = (.error "not enough samples", sd) := by
      simp only [Detect]
      rw [fixWindowSize_of_ne sd hInv.wsNe, if_pos (by omega)]
    rw [this]
    exact ⟨by intro e he; exact (Except.error.injEq .. ▸ he).symm ▸ rfl, hInv⟩

/-- `DetectStream` under the invariant: it never errors, and the invariant
is preserved. -/
theorem DetectStream_inv (m : InferenceModel) (sd : Detector) (pcm : List ℚ) (hInv : Inv sd) :
    (∃ segs, (DetectStream m sd pcm).1 = .ok segs) ∧ Inv (DetectStream m sd pcm).2 := by
  obtain ⟨evs, sd2, hRun, hcfg, hws, hib, hsb, htr, hcur, htemp, _⟩ :=
    runEvents_ok m (minSilenceSamplesOf sd) (speechPadSamplesOf sd) hInv.padSamples
      (windows sd.windowSize (sd.streamBuf ++ pcm)) (sd.setBuf []) hInv.wsNe hInv.ibuf
      hInv.trig hInv.curr hInv.temp hInv.ratePos
      (windows_length sd.windowSize (sd.streamBuf ++ pcm).length (sd.streamBuf ++ pcm) le_rfl)
  rw [DetectStream_eq m sd pcm hInv.wsNe hInv.sbuf evs sd2 hRun]
  refine ⟨⟨_, rfl⟩, ?_⟩
  exact { ws0 := by
            show sd2.windowSize = windowSizeForSampleRate sd2.cfg.SampleRate
            rw [hws, hcfg]
            exact hInv.ws0
          sbuf := by
            show (remTail sd.windowSize (sd.streamBuf ++ pcm)).length < sd2.windowSize
            rw [hws]
            exact remTail_length sd.windowSize hInv.wsPos (sd.streamBuf ++ pcm).length _ le_rfl
          ibuf := hib
          trig := htr
          curr := hcur
          temp := htemp
          rate := by
            show sd2.cfg.SampleRate = 8000 ∨ sd2.cfg.SampleRate = 16000
            rw [hcfg]
            exact hInv.rate
          msil := by
            show (0:ℤ) ≤ sd2.cfg.MinSilenceDurationMs
            rw [hcfg]
            exact hInv.msil
          pad := by
            show (0:ℤ) ≤ sd2.cfg.SpeechPadMs
            rw [hcfg]
            exact hInv.pad }

theorem Reset_inv (sd : Detector) (hInv : Inv sd) : Inv (Reset sd) where
  ws0 := hInv.ws0
  sbuf := by
    show ([] : List ℚ).length < sd.windowSize
    simpa using hInv.wsPos
  ibuf := by
    show (List.replicate sd.inputBuf.length (0 : ℚ)).length = contextLen + sd.windowSize
    rw [List.length_replicate]
    exact hInv.ibuf
  trig := by simp [Reset]
  curr := le_refl 0
  temp := by simp [Reset]
  rate := hInv.rate
  msil := hInv.msil
  pad := hInv.pad

theorem IsValid_none_facts (c : DetectorConfig) (h : c.IsValid = none) :
    (c.SampleRate = 8000 ∨ c.SampleRate = 16000) ∧ 0 < c.Threshold ∧ c.Threshold < 1 ∧
      0 ≤ c.MinSilenceDurationMs ∧ 0 ≤ c.SpeechPadMs := by
  unfold DetectorConfig.IsValid at h
  split_ifs at h with h1 h2 h3 h4 h5
  refine ⟨?_, ?_, ?_, by omega, by omega⟩
  · by_cases hc : c.SampleRate = 8000
    · exact Or.inl hc
    · exact Or.inr (by tauto)
  · by_cases hc : 0 < c.Threshold
    · exact hc
    · exact absurd (Or.inl (by linarith)) h3
  · by_cases hc : c.Threshold < 1
    · exact hc
    · exact absurd (Or.inr (by linarith)) h3

theorem NewDetector_inv (cfg : DetectorConfig) (sd : Detector)
    (h : NewDetector cfg = .ok sd) : Inv sd := by
  unfold NewDetector at h
  rcases hv : cfg.IsValid with _ | e
  · rw [hv] at h
    obtain ⟨hrate, _, _, hms, hps⟩ := IsValid_none_facts cfg hv
    cases h
    exact { ws0 := rfl
            sbuf := by
              show ([] : List ℚ).length < windowSizeForSampleRate cfg.SampleRate
              simpa using windowSizeForSampleRate_pos cfg.SampleRate
            ibuf := by
              show (List.replicate (contextLen + windowSizeForSampleRate cfg.SampleRate) (0:ℚ)).length = _
              rw [List.length_replicate]
            trig := by intro h; simp at h
            curr := le_refl 0
            temp := by intro h; simp at h
            rate := hrate
            msil := hms
            pad := hps }
  · rw [hv] at h
    simp at h

/-- One public mutating call on a detector. -/
inductive VadOp where
  | det (pcm : List ℚ)
  | stream (pcm : List ℚ)
  | reset

/-- Dispatch one call (Reset always succeeds; Go returns `nil`). -/
def runOp (m : InferenceModel) (sd : Detector) :
    VadOp → Except String (List Segment) × Detector
  | .det pcm => Detect m sd pcm
  | .stream pcm => DetectStream m sd pcm
  | .reset => (.ok [], Reset sd)

/-- Run a sequence of public calls, collecting each call's result. -/
def runOps (m : InferenceModel) (sd : Detector) :
    List VadOp → List (Except String (List Segment)) × Detector
  | [] => ([], sd)
  | op :: ops =>
    let r := runOp m sd op
    let rest := runOps m r.2 ops
    (r.1 :: rest.1, rest.2)

theorem runOp_inv (m : InferenceModel) (sd : Detector) (op : VadOp) (hInv : Inv sd) :
    (∀ e, (runOp m sd op).1 = .error e → e = "not enough samples") ∧
      Inv (runOp m sd op).2 := by
  cases op with
  | det pcm => exact Detect_inv m sd pcm hInv
  | stream pcm =>
    obtain ⟨⟨segs, hs⟩, hI⟩ := DetectStream_inv m sd pcm hInv
    refine ⟨?_, hI⟩
    intro e he
    rw [show (runOp m sd (.stream pcm)).1 = (DetectStream m sd pcm).1 from rfl, hs] at he
    simp at he
  | reset =>
    refine ⟨?_, Reset_inv sd hInv⟩
    intro e he
    simp [runOp] at he

theorem runOps_inv (m : InferenceModel) :
    ∀ (ops : List VadOp) (sd : Detector), Inv sd →
      (∀ r ∈ (runOps m sd ops).1, ∀ e, r = .error e → e = "not enough samples") ∧
        Inv (runOps m sd ops).2 := by
  intro ops
  induction ops with
  | nil =>
    intro sd hInv
    exact ⟨by simp [runOps], hInv⟩
  | cons op ops ih =>
    intro sd hInv
    obtain ⟨hop, hopI⟩ := runOp_inv m sd op hInv
    obtain ⟨hrest, hrestI⟩ := ih (runOp m sd op).2 hopI
    refine ⟨?_, hrestI⟩
    intro r hr e he
    simp only [runOps, List.mem_cons] at hr
    rcases hr with rfl | hr
    · exact hop e he
    · exact hrest r hr e he

/-- Reading a streamed segment back as the event that produced it: an open
segment (`SpeechEndAt = 0`) is a start event; a closed one is an end event
carrying its own start timestamp. -/
def segAsEvent (s : Segment) : SpeechEvent :=
  if s.SpeechEndAt = 0 then
    { hasStart := true, startAt := s.SpeechStartAt, hasEnd := false, endAt := 0, endStartAt := 0 }
  else
    { hasStart := false, startAt := 0, hasEnd := true, endAt := s.SpeechEndAt,
      endStartAt := s.SpeechStartAt }

/-- Reconstruction of full segments from a streaming event log: pair each
open start-only segment with the later closed segment carrying the same
start timestamp (an end with no matching open segment stays standalone). -/
def reconstruct (segs : List Segment) : List Segment :=
  (segs.map segAsEvent).foldl appendBatchEvent []

/-- Feeding a list of chunks one call at a time to `DetectStream`,
concatenating the returned segment events. -/
def streamChunks (m : InferenceModel) (sd : Detector) :
    List (List ℚ) → Except String (List Segment) × Detector
  | [] => (.ok [], sd)
  | c :: cs =>
    match DetectStream m sd c with
    | (.error e, sd) => (.error e, sd)
    | (.ok segs, sd) =>
      match streamChunks m sd cs with
      | (.error e, sd) => (.error e, sd)
      | (.ok rest, sd) => (.ok (segs ++ rest), sd)

/-- An event split into its start-only and end-only parts. -/
def splitEvent (ev : SpeechEvent) : List SpeechEvent :=
  (if ev.hasStart = true then
    [{ hasStart := true, startAt := ev.startAt, hasEnd := false, endAt := 0, endStartAt := 0 }]
  else []) ++
  (if ev.hasEnd = true then
    [{ hasStart := false, startAt := 0, hasEnd := true, endAt := ev.endAt,
       endStartAt := ev.endStartAt }]
  else [])

theorem appendStreamEvent_append (segs : List Segment) (ev : SpeechEvent) :
    appendStreamEvent segs ev = segs ++ appendStreamEvent [] ev := by
  unfold appendStreamEvent
  split_ifs <;> simp

theorem foldl_appendStreamEvent (evs : List SpeechEvent) :
    ∀ segs, List.foldl appendStreamEvent segs evs =
      segs ++ List.foldl appendStreamEvent [] evs := by
  induction evs with
  | nil => intro segs; simp
  | cons ev evs ih =>
    intro segs
    show List.foldl appendStreamEvent (appendStreamEvent segs ev) evs =
      segs ++ List.foldl appendStreamEvent (appendStreamEvent [] ev) evs
    rw [ih (appendStreamEvent segs ev), ih (appendStreamEvent [] ev),
      appendStreamEvent_append segs ev, List.append_assoc]

theorem batch_split (acc : List Segment) (ev : SpeechEvent) :
    List.foldl appendBatchEvent acc (splitEvent ev) = appendBatchEvent acc ev := by
  rcases ev with ⟨hs, sa, he, ea, es⟩
  cases hs <;> cases he <;>
    simp [splitEvent, appendBatchEvent]

theorem stream_split (ev : SpeechEvent) (hgood : ev.hasEnd = true → 0 < ev.endAt) :
    (appendStreamEvent [] ev).map segAsEvent = splitEvent ev := by
  rcases ev with ⟨hs, sa, he, ea, es⟩
  cases hs <;> cases he <;>
    simp_all [appendStreamEvent, splitEvent, segAsEvent, ne_of_gt]

theorem stream_map_split (evs : List SpeechEvent)
    (hgood : ∀ ev ∈ evs, ev.hasEnd = true → 0 < ev.endAt) :
    (List.foldl appendStreamEvent [] evs).map segAsEvent =
      (evs.map splitEvent).flatten := by
  induction evs with
  | nil => rfl
  | cons ev evs ih =>
    show (List.foldl appendStreamEvent (appendStreamEvent [] ev) evs).map segAsEvent = _
    rw [foldl_appendStreamEvent evs (appendStreamEvent [] ev), List.map_append,
      stream_split ev (hgood ev (by simp)), List.map_cons, List.flatten_cons,
      ih (by intro e he hE; exact hgood e (by simp [he]) hE)]

theorem batch_join_split (evs : List SpeechEvent) :
    ∀ acc, List.foldl appendBatchEvent acc ((evs.map splitEvent).flatten) =
      List.foldl appendBatchEvent acc evs := by
  induction evs with
  | nil => intro acc; rfl
  | cons ev evs ih =>
    intro acc
    rw [List.map_cons, List.flatten_cons, List.foldl_append, batch_split acc ev]
    exact ih (appendBatchEvent acc ev)

/-- On any event log whose end events carry positive timestamps (as all
reachable logs do), reconstructing the streamed per-event segments yields
exactly the batch assembly of the same events. -/
theorem reconstruct_eq_batch (evs : List SpeechEvent)
    (hgood : ∀ ev ∈ evs, ev.hasEnd = true → 0 < ev.endAt) :
    reconstruct (List.foldl appendStreamEvent [] evs) =
      List.foldl appendBatchEvent [] evs := by
  unfold reconstruct
  rw [stream_map_split evs hgood, batch_join_split evs []]

theorem windows_append (ws : ℕ) :
    ∀ (n : ℕ) (x : List ℚ), x.length ≤ n → ∀ (y : List ℚ),
      windows ws (x ++ y) = windows ws x ++ windows ws (remTail ws x ++ y) ∧
      remTail ws (x ++ y) = remTail ws (remTail ws x ++ y) := by
  intro n
  induction n with
  | zero =>
    intro x hn y
    have hx : x = [] := List.length_eq_zero.mp (by omega)
    subst hx
    rw [windows_stop ws [] (by simp only [List.length_nil]; omega),
      remTail_stop ws [] (by simp only [List.length_nil]; omega)]
    simp
  | succ n ih =>
    intro x hn y
    by_cases hc : 0 < ws ∧ ws ≤ x.length
    · have hcy : 0 < ws ∧ ws ≤ (x ++ y).length := by
        simp only [List.length_append]
        omega
      obtain ⟨ihw, ihr⟩ := ih (x.drop ws) (by simp only [List.length_drop]; omega) y
      constructor
      · rw [windows_step ws (x ++ y) hcy, windows_step ws x hc,
          List.take_append_of_le_length hc.2, List.drop_append_of_le_length hc.2,
          remTail_step ws x hc, ihw, List.cons_append]
      · rw [remTail_step ws (x ++ y) hcy, List.drop_append_of_le_length hc.2,
          remTail_step ws x hc, ihr]
    · rw [windows_stop ws x hc, remTail_stop ws x hc]
      simp

theorem runEvents_append (m : InferenceModel) (a b : ℤ) :
    ∀ (l1 l2 : List (List ℚ)) (sd : Detector),
      runEvents m a b sd (l1 ++ l2) =
        (match runEvents m a b sd l1 with
         | (.error e, sd) => (.error e, sd)
         | (.ok evs1, sd) =>
           match runEvents m a b sd l2 with
           | (.error e, sd) => (.error e, sd)
           | (.ok evs2, sd) => (.ok (evs1 ++ evs2), sd)) := by
  intro l1
  induction l1 with
  | nil =>
    intro l2 sd
    rcases h : runEvents m a b sd l2 with ⟨r, sd2⟩
    rcases r with e | evs <;> simp [runEvents, h]
  | cons w ws ih =>
    intro l2 sd
    show runEvents m a b sd (w :: (ws ++ l2)) = _
    simp only [runEvents]
    rcases hP : processWindow m sd w a b with ⟨r, sdB⟩
    rcases r with e | ev
    · rfl
    · dsimp only
      rw [ih l2 sdB]
      rcases h1 : runEvents m a b sdB ws with ⟨r1, sd1⟩
      rcases r1 with e | evs1
      · rfl
      · dsimp only
        rcases h2 : runEvents m a b sd1 l2 with ⟨r2, sd2⟩
        rcases r2 with e | evs2 <;> rfl

theorem minSilenceSamplesOf_congr (sd1 sd2 : Detector) (h : sd1.cfg = sd2.cfg) :
    minSilenceSamplesOf sd1 = minSilenceSamplesOf sd2 := by
  unfold minSilenceSamplesOf
  rw [h]

theorem speechPadSamplesOf_congr (sd1 sd2 : Detector) (h : sd1.cfg = sd2.cfg) :
    speechPadSamplesOf sd1 = speechPadSamplesOf sd2 := by
  unfold speechPadSamplesOf
  rw [h]

/-- The streaming runs over any chunking are the event log over the windows
of the whole concatenated input, assembled one segment per event, with the
final partial window buffered. -/
theorem streamChunks_eq (m : InferenceModel) :
    ∀ (cs : List (List ℚ)) (sd : Detector), Inv sd →
      ∀ (evs : List SpeechEvent) (sd2 : Detector),
        runEvents m (minSilenceSamplesOf sd) (speechPadSamplesOf sd) (sd.setBuf [])
          (windows sd.windowSize (sd.streamBuf ++ cs.flatten)) = (.ok evs, sd2) →
        streamChunks m sd cs =
          (.ok (evs.foldl appendStreamEvent []),
           sd2.setBuf (remTail sd.windowSize (sd.streamBuf ++ cs.flatten))) := by
  intro cs
  induction cs with
  | nil =>
    intro sd hInv evs sd2 hrun
    simp only [List.flatten_nil, List.append_nil] at hrun ⊢
    have hw : ¬(0 < sd.windowSize ∧ sd.windowSize ≤ sd.streamBuf.length) := by
      have := hInv.sbuf
      omega
    rw [windows_stop _ _ hw] at hrun
    simp only [runEvents] at hrun
    have h1 : evs = [] := by
      have := congrArg Prod.fst hrun
      simpa using this.symm
    have h2 : sd2 = sd.setBuf [] := (congrArg Prod.snd hrun).symm
    subst h1
    subst h2
    rw [remTail_stop _ _ hw]
    show (Except.ok [], sd) = (_, (sd.setBuf []).setBuf sd.streamBuf)
    rw [setBuf_setBuf, setBuf_self]
    rfl
  | cons c cs ih =>
    intro sd hInv evs sd2 hrun
    have hassoc : sd.streamBuf ++ (c :: cs).flatten = (sd.streamBuf ++ c) ++ cs.flatten := by
      rw [List.flatten_cons, List.append_assoc]
    rw [hassoc] at hrun
    obtain ⟨hwapp, hrapp⟩ :=
      windows_append sd.windowSize (sd.streamBuf ++ c).length (sd.streamBuf ++ c) le_rfl
        cs.flatten
    rw [hwapp, runEvents_append] at hrun
    obtain ⟨evs1, sdm, hR1, hcfg1, hws1, hib1, hsb1, htr1, hcur1, htemp1, hgood1⟩ :=
      runEvents_ok m (minSilenceSamplesOf sd) (speechPadSamplesOf sd) hInv.padSamples
        (windows sd.windowSize (sd.streamBuf ++ c)) (sd.setBuf []) hInv.wsNe hInv.ibuf
        hInv.trig hInv.curr hInv.temp hInv.ratePos
        (windows_length sd.windowSize (sd.streamBuf ++ c).length (sd.streamBuf ++ c) le_rfl)
    rw [hR1] at hrun
    dsimp only at hrun
    have hDS : DetectStream m sd c =
        (.ok (evs1.foldl appendStreamEvent []),
         sdm.setBuf (remTail sd.windowSize (sd.streamBuf ++ c))) :=
      DetectStream_eq m sd c hInv.wsNe hInv.sbuf evs1 sdm hR1
    have hInvNext : Inv (DetectStream m sd c).2 := (DetectStream_inv m sd c hInv).2
    rw [hDS] at hInvNext
    have hsb0 : sdm.streamBuf = [] := hsb1
    have hsdm0 : sdm.setBuf [] = sdm := by
      rw [← hsb0]
      exact setBuf_self sdm
    have hNcfg : (sdm.setBuf (remTail sd.windowSize (sd.streamBuf ++ c))).cfg = sd.cfg := by
      show sdm.cfg = sd.cfg
      rw [hcfg1]
      rfl
    have hNws : (sdm.setBuf (remTail sd.windowSize (sd.streamBuf ++ c))).windowSize =
        sd.windowSize := by
      show sdm.windowSize = sd.windowSize
      rw [hws1]
      rfl
    rcases hR2 : runEvents m (minSilenceSamplesOf sd) (speechPadSamplesOf sd) sdm
        (windows sd.windowSize
          (remTail sd.windowSize (sd.streamBuf ++ c) ++ cs.flatten)) with ⟨r2, sd2x⟩
    rw [hR2] at hrun
    rcases r2 with e | evs2
    · exact absurd (congrArg Prod.fst hrun) (by simp)
    · dsimp only at hrun
      have hEvs : evs = evs1 ++ evs2 := by
        have := congrArg Prod.fst hrun
        simpa using this.symm
      have hSd2 : sd2 = sd2x := by
        have := congrArg Prod.snd hrun
        simpa using this.symm
      have hR2N : runEvents m
          (minSilenceSamplesOf (sdm.setBuf (remTail sd.windowSize (sd.streamBuf ++ c))))
          (speechPadSamplesOf (sdm.setBuf (remTail sd.windowSize (sd.streamBuf ++ c))))
          ((sdm.setBuf (remTail sd.windowSize (sd.streamBuf ++ c))).setBuf [])
          (windows (sdm.setBuf (remTail sd.windowSize (sd.streamBuf ++ c))).windowSize
            ((sdm.setBuf (remTail sd.windowSize (sd.streamBuf ++ c))).streamBuf ++ cs.flatten)) =
          (.ok evs2, sd2x) := by
        rw [minSilenceSamplesOf_congr _ sd hNcfg, speechPadSamplesOf_congr _ sd hNcfg, hNws,
          setBuf_setBuf, hsdm0]
        exact hR2
      have hih := ih (sdm.setBuf (remTail sd.windowSize (sd.streamBuf ++ c))) hInvNext
        evs2 sd2x hR2N
      show (match DetectStream m sd c with
        | (Except.error e, sd) => (Except.error e, sd)
        | (Except.ok segs, sd) =>
          match streamChunks m sd cs with
          | (Except.error e, sd) => (Except.error e, sd)
          | (Except.ok rest, sd) =>
            ((Except.ok (segs ++ rest) : Except String (List Segment)), sd)) = _
      rw [hDS]
      dsimp only
      rw [hih]
      dsimp only
      rw [hEvs, hSd2]
      have hfold : (evs1 ++ evs2).foldl appendStreamEvent [] =
          evs1.foldl appendStreamEvent [] ++ evs2.foldl appendStreamEvent [] := by
        rw [List.foldl_append, foldl_appendStreamEvent]
      rw [hfold]
      have hrem : remTail
            (sdm.setBuf (remTail sd.windowSize (sd.streamBuf ++ c))).windowSize
            ((sdm.setBuf (remTail sd.windowSize (sd.streamBuf ++ c))).streamBuf ++ cs.flatten) =
          remTail sd.windowSize ((sd.streamBuf ++ c) ++ cs.flatten) := by
        rw [hNws]
        show remTail sd.windowSize
            (remTail sd.windowSize (sd.streamBuf ++ c) ++ cs.flatten) = _
        rw [hrapp]
      rw [hrem]
      rw [show sd.streamBuf ++ (c :: cs).flatten = (sd.streamBuf ++ c) ++ cs.flatten from hassoc]

theorem startTimestamp_eq_max (sd : Detector) (b : ℤ) :
    startTimestamp sd b =
      max 0 (((sd.currSample - (sd.windowSize : ℤ) - b : ℤ) : ℚ) /
        ((sd.cfg.SampleRate : ℤ) : ℚ)) := by
  unfold startTimestamp
  rcases lt_or_le (((sd.currSample - (sd.windowSize : ℤ) - b : ℤ) : ℚ) /
      ((sd.cfg.SampleRate : ℤ) : ℚ)) 0 with h | h
  · rw [if_pos h, max_eq_left (le_of_lt h)]
  · rw [if_neg (not_lt.mpr h), max_eq_right h]

/-- C3: whenever a window's probability reaches the threshold while the
detector is not triggered, the trigger fires with exactly one start event
whose timestamp is `max(0, (currSample − windowSize − speechPadSamples) /
sampleRate)` (with `currSample` already advanced past the current window);
`pendingStart` records that timestamp and `pendingStartValid` becomes true. -/
theorem C3_start_event_timestamp (sd : Detector) (p : ℚ) (a b : ℤ)
    (hp : sd.cfg.Threshold ≤ p) (ht : sd.triggered = false) :
    ∃ ev sd2, advanceSpeech sd p a b = (.ok ev, sd2) ∧
      ev.hasStart = true ∧ ev.hasEnd = false ∧
      ev.startAt = max 0 (((sd.currSample - (sd.windowSize : ℤ) - b : ℤ) : ℚ) /
        ((sd.cfg.SampleRate : ℤ) : ℚ)) ∧
      sd2.pendingStart = ev.startAt ∧ sd2.pendingStartValid = true ∧
      sd2.triggered = true := by
  refine ⟨_, _, advanceSpeech_start sd p a b ht hp, rfl, rfl, ?_, ?_, rfl, rfl⟩
  · exact startTimestamp_eq_max sd b
  · rfl

/-- A valid sample configuration used by concrete instances. -/
def cfgStd : DetectorConfig :=
  { ModelPath := "silero_vad.onnx", SampleRate := 16000, Threshold := 1/2,
    MinSilenceDurationMs := 0, SpeechPadMs := 0 }

/-- The freshly constructed detector for `cfgStd`. -/
def sdStd : Detector :=
  { cfg := cfgStd, state := List.replicate stateLen 0, windowSize := 512,
    inputBuf := List.replicate (contextLen + 512) 0, pendingStart := 0,
    pendingStartValid := false, streamBuf := [], currSample := 0,
    triggered := false, tempEnd := 0 }

theorem cfgStd_IsValid : cfgStd.IsValid = none := by
  unfold DetectorConfig.IsValid cfgStd
  rw [if_neg (by decide), if_neg (by norm_num), if_neg (by norm_num), if_neg (by norm_num),
    if_neg (by norm_num)]

theorem NewDetector_cfgStd : NewDetector cfgStd = .ok sdStd := by
  unfold NewDetector
  rw [cfgStd_IsValid]
  show Except.ok _ = Except.ok sdStd
  unfold sdStd cfgStd windowSizeForSampleRate
  norm_num

theorem C3_start_event_timestamp_witness :
    ∃ ev sd2,
      advanceSpeech { sdStd with currSample := 512 } (3/4) 0 0 = (.ok ev, sd2) ∧
      ev.hasStart = true ∧ ev.hasEnd = false ∧
      ev.startAt = max 0 ((((512 : ℤ) - ((512 : ℕ) : ℤ) - 0 : ℤ) : ℚ) / (((16000 : ℤ)) : ℚ)) ∧
      sd2.pendingStart = ev.startAt ∧ sd2.pendingStartValid = true ∧
      sd2.triggered = true := by
  have h := C3_start_event_timestamp { sdStd with currSample := 512 } (3/4) 0 0
    (by norm_num [sdStd, cfgStd]) rfl
  simpa [sdStd, cfgStd] using h

/-- C8: a batch `Detect` call with fewer samples than one window (fewer
than 256 at 8000 Hz, fewer than 512 at 16000 Hz) fails with the
"not enough samples" error, returns no segments, and leaves the detector
unchanged — no inference runs and no events are emitted. -/
theorem C8_insufficient_input (m : InferenceModel) (sd : Detector) (pcm : List ℚ)
    (hws : sd.windowSize = windowSizeForSampleRate sd.cfg.SampleRate)
    (hlen : pcm.length < sd.windowSize) :
    Detect m sd pcm = (.error "not enough samples", sd) ∧
      windowSizeForSampleRate 8000 = 256 ∧ windowSizeForSampleRate 16000 = 512 := by
  refine ⟨?_, by norm_num [windowSizeForSampleRate], by norm_num [windowSizeForSampleRate]⟩
  have h0 : sd.windowSize ≠ 0 := by
    rw [hws]
    exact Nat.pos_iff_ne_zero.mp (windowSizeForSampleRate_pos _)
  simp only [Detect]
  rw [fixWindowSize_of_ne sd h0, if_pos hlen]

theorem C8_insufficient_input_witness :
    Detect (fun _ st => (0, st)) sdStd (List.replicate 100 0) =
      (.error "not enough samples", sdStd) ∧
      windowSizeForSampleRate 8000 = 256 ∧ windowSizeForSampleRate 16000 = 512 :=
  C8_insufficient_input (fun _ st => (0, st)) sdStd (List.replicate 100 0)
    (by norm_num [sdStd, cfgStd, windowSizeForSampleRate])
    (by norm_num [sdStd])

/-- C9: `Infer` rejects a sample slice whose length differs from the window
size (shorter or longer) with an error and probability 0; the detector is
unchanged (in particular the recurrent state is not mutated) and the
inference engine is never consulted (the outcome is the same for every
model). -/
theorem C9_infer_length_guard (m : InferenceModel) (sd : Detector) (samples : List ℚ)
    (h0 : sd.windowSize ≠ 0) (h : samples.length ≠ sd.windowSize) :
    Infer m sd samples = { prob := 0, err := some "invalid samples length", sd := sd } ∧
      (Infer m sd samples).sd.state = sd.state ∧
      ∀ m2 : InferenceModel, Infer m2 sd samples = Infer m sd samples := by
  have h1 := Infer_mismatch m sd samples h0 h
  refine ⟨h1, by rw [h1], ?_⟩
  intro m2
  rw [h1, Infer_mismatch m2 sd samples h0 h]

theorem C9_infer_length_guard_witness :
    (Infer (fun _ st => (1, st)) sdStd (List.replicate 100 0) =
        { prob := 0, err := some "invalid samples length", sd := sdStd } ∧
      (Infer (fun _ st => (1, st)) sdStd (List.replicate 100 0)).sd.state = sdStd.state ∧
      ∀ m2 : InferenceModel, Infer m2 sdStd (List.replicate 100 0) =
        Infer (fun _ st => (1, st)) sdStd (List.replicate 100 0)) ∧
    (Infer (fun _ st => (1, st)) sdStd (List.replicate 600 0) =
        { prob := 0, err := some "invalid samples length", sd := sdStd } ∧
      (Infer (fun _ st => (1, st)) sdStd (List.replicate 600 0)).sd.state = sdStd.state ∧
      ∀ m2 : InferenceModel, Infer m2 sdStd (List.replicate 600 0) =
        Infer (fun _ st => (1, st)) sdStd (List.replicate 600 0)) :=
  ⟨C9_infer_length_guard (fun _ st => (1, st)) sdStd (List.replicate 100 0)
      (by norm_num [sdStd]) (by norm_num [sdStd]),
   C9_infer_length_guard (fun _ st => (1, st)) sdStd (List.replicate 600 0)
      (by norm_num [sdStd]) (by norm_num [sdStd])⟩

/-- C5: the batch assembler of `Detect`.  The returned list is exactly the
per-event left fold of `appendBatchEvent` (in event order) over the events
of the processed windows; a start event appends a new open segment
(`SpeechEndAt = 0`), and an end event closes the most recently appended
segment when it is still open with a matching start, and appends a
standalone closed `(endStartAt, endAt)` segment otherwise. -/
theorem C5_batch_assembler (m : InferenceModel) (sd : Detector) (pcm : List ℚ)
    (h0 : sd.windowSize ≠ 0) (hge : sd.windowSize ≤ pcm.length)
    (evs : List SpeechEvent) (sd2 : Detector)
    (hrun : runEvents m (minSilenceSamplesOf sd) (speechPadSamplesOf sd) sd
        (windows sd.windowSize pcm) = (.ok evs, sd2)) :
    Detect m sd pcm = (.ok (evs.foldl appendBatchEvent []), sd2) ∧
      (∀ (segs : List Segment) (ev : SpeechEvent), ev.hasStart = true → ev.hasEnd = false →
        appendBatchEvent segs ev = segs ++ [{ SpeechStartAt := ev.startAt, SpeechEndAt := 0 }]) ∧
      (∀ (segs : List Segment) (ev : SpeechEvent) (lastSeg : Segment),
        ev.hasStart = false → ev.hasEnd = true → segs.getLast? = some lastSeg →
        lastSeg.SpeechEndAt = 0 → lastSeg.SpeechStartAt = ev.endStartAt →
        appendBatchEvent segs ev =
          segs.dropLast ++ [{ lastSeg with SpeechEndAt := ev.endAt }]) ∧
      (∀ (segs : List Segment) (ev : SpeechEvent) (lastSeg : Segment),
        ev.hasStart = false → ev.hasEnd = true → segs.getLast? = some lastSeg →
        ¬(lastSeg.SpeechEndAt = 0 ∧ lastSeg.SpeechStartAt = ev.endStartAt) →
        appendBatchEvent segs ev =
          segs ++ [{ SpeechStartAt := ev.endStartAt, SpeechEndAt := ev.endAt }]) := by
  refine ⟨?_, ?_, ?_, ?_⟩
  · rw [Detect_eq m sd pcm h0 hge, hrun]
  · intro segs ev hs he
    unfold appendBatchEvent
    rw [if_neg (by simp [he]), if_pos hs]
  · intro segs ev lastSeg hs he hlast hopen hmatch
    unfold appendBatchEvent
    rw [if_pos he, if_neg (by simp [hs]), hlast]
    dsimp only
    rw [if_pos ⟨hopen, hmatch⟩]
  · intro segs ev lastSeg hs he hlast hmis
    unfold appendBatchEvent
    rw [if_pos he, if_neg (by simp [hs]), hlast]
    dsimp only
    rw [if_neg hmis]

/-- The constant-zero inference model, used by concrete instances. -/
def zeroModel : InferenceModel := fun _ st => (0, st)

/-- `sdStd` after one all-zero window under `zeroModel`. -/
def sdStdOne : Detector := { sdStd with currSample := 512 }

theorem minSilenceSamplesOf_sdStd : minSilenceSamplesOf sdStd = 0 := by
  unfold minSilenceSamplesOf sdStd cfgStd
  norm_num

theorem speechPadSamplesOf_sdStd : speechPadSamplesOf sdStd = 0 := by
  unfold speechPadSamplesOf sdStd cfgStd
  norm_num

theorem windows_sdStd_one :
    windows sdStd.windowSize (List.replicate 512 (0 : ℚ)) = [List.replicate 512 (0 : ℚ)] := by
  rw [windows_step _ _ (by norm_num [sdStd]),
    windows_stop _ _ (by norm_num [sdStd])]
  norm_num [sdStd]

theorem coreStep_sdStd :
    coreStep zeroModel sdStd (List.replicate 512 (0 : ℚ)) = sdStdOne := by
  unfold coreStep inferInput zeroModel sdStdOne sdStd contextLen
  norm_num [List.take_replicate, List.drop_replicate, ← List.replicate_add, sdStd]

theorem processWindow_sdStd :
    processWindow zeroModel sdStd (List.replicate 512 (0 : ℚ)) 0 0 =
      (.ok SpeechEvent.empty, sdStdOne) := by
  rw [processWindow_ok zeroModel sdStd _ 0 0 (by norm_num [sdStd])
    (by unfold sdStd; norm_num) (by unfold sdStd contextLen; norm_num)]
  rw [coreStep_sdStd]
  rw [advanceSpeech_low_of_notTriggered sdStdOne _ 0 0 rfl
    (by norm_num [sdStdOne, sdStd, cfgStd, zeroModel])]

theorem runEvents_sdStd_one :
    runEvents zeroModel 0 0 sdStd [List.replicate 512 (0 : ℚ)] =
      (.ok [SpeechEvent.empty], sdStdOne) := by
  simp only [runEvents]
  rw [processWindow_sdStd]

theorem C5_batch_assembler_witness :
    (Detect zeroModel sdStd (List.replicate 512 0) =
      (.ok (List.foldl appendBatchEvent [] [SpeechEvent.empty]), sdStdOne)) ∧
      (∀ (segs : List Segment) (ev : SpeechEvent), ev.hasStart = true → ev.hasEnd = false →
        appendBatchEvent segs ev = segs ++ [{ SpeechStartAt := ev.startAt, SpeechEndAt := 0 }]) ∧
      (∀ (segs : List Segment) (ev : SpeechEvent) (lastSeg : Segment),
        ev.hasStart = false → ev.hasEnd = true → segs.getLast? = some lastSeg →
        lastSeg.SpeechEndAt = 0 → lastSeg.SpeechStartAt = ev.endStartAt →
        appendBatchEvent segs ev =
          segs.dropLast ++ [{ lastSeg with SpeechEndAt := ev.endAt }]) ∧
      (∀ (segs : List Segment) (ev : SpeechEvent) (lastSeg : Segment),
        ev.hasStart = false → ev.hasEnd = true → segs.getLast? = some lastSeg →
        ¬(lastSeg.SpeechEndAt = 0 ∧ lastSeg.SpeechStartAt = ev.endStartAt) →
        appendBatchEvent segs ev =
          segs ++ [{ SpeechStartAt := ev.endStartAt, SpeechEndAt := ev.endAt }]) :=
  C5_batch_assembler zeroModel sdStd (List.replicate 512 0)
    (by norm_num [sdStd]) (by norm_num [sdStd]) [SpeechEvent.empty] sdStdOne
    (by rw [minSilenceSamplesOf_sdStd, speechPadSamplesOf_sdStd, windows_sdStd_one]
        exact runEvents_sdStd_one)

theorem NewDetector_streamBuf (cfg : DetectorConfig) (sd0 : Detector)
    (h : NewDetector cfg = .ok sd0) : sd0.streamBuf = [] := by
  unfold NewDetector at h
  rcases hv : cfg.IsValid with _ | e
  · rw [hv] at h
    cases h
    rfl
  · rw [hv] at h
    simp at h

/-- C6: starting from any freshly constructed detector and running any mix
of `Detect`, `DetectStream` and `Reset` calls with any deterministic
inference engine, every error returned is the insufficient-input error (in
particular the defensive "unexpected speech end" of the end-finalization
branch is never returned), and every reachable state satisfies
`triggered → pendingStartValid`. -/
theorem C6_invariant_violation_unreachable (m : InferenceModel) (cfg : DetectorConfig)
    (sd0 : Detector) (ops : List VadOp) (h : NewDetector cfg = .ok sd0) :
    (∀ r ∈ (runOps m sd0 ops).1, ∀ e, r = .error e → e = "not enough samples") ∧
      (∀ r ∈ (runOps m sd0 ops).1, r ≠ .error "unexpected speech end") ∧
      ((runOps m sd0 ops).2.triggered = true → (runOps m sd0 ops).2.pendingStartValid = true) := by
  obtain ⟨hres, hinv⟩ := runOps_inv m ops sd0 (NewDetector_inv cfg sd0 h)
  refine ⟨hres, ?_, hinv.trig⟩
  intro r hr hcon
  have := hres r hr "unexpected speech end" hcon
  simp at this

theorem C6_invariant_violation_unreachable_witness :
    (∀ r ∈ (runOps zeroModel sdStd
        [VadOp.det (List.replicate 512 0), VadOp.reset,
         VadOp.stream (List.replicate 100 0)]).1,
      ∀ e, r = .error e → e = "not enough samples") ∧
    (∀ r ∈ (runOps zeroModel sdStd
        [VadOp.det (List.replicate 512 0), VadOp.reset,
         VadOp.stream (List.replicate 100 0)]).1,
      r ≠ .error "unexpected speech end") ∧
    ((runOps zeroModel sdStd
        [VadOp.det (List.replicate 512 0), VadOp.reset,
         VadOp.stream (List.replicate 100 0)]).2.triggered = true →
      (runOps zeroModel sdStd
        [VadOp.det (List.replicate 512 0), VadOp.reset,
         VadOp.stream (List.replicate 100 0)]).2.pendingStartValid = true) :=
  C6_invariant_violation_unreachable zeroModel cfgStd sdStd
    [VadOp.det (List.replicate 512 0), VadOp.reset, VadOp.stream (List.replicate 100 0)]
    NewDetector_cfgStd

/-- C7: `Reset` on any detector whose immutable derived fields match its
configuration restores exactly the freshly constructed detector for that
configuration, so replaying any sequence of calls after `Reset` produces
output identical to running it on a fresh detector — no hidden carry-over
survives in the recurrent state, the carry-over buffer or the trigger
state. -/
theorem C7_reset_replay (m : InferenceModel) (cfg : DetectorConfig) (sd0 sd : Detector)
    (ops : List VadOp) (h0 : NewDetector cfg = .ok sd0) (hcfg : sd.cfg = cfg)
    (hws : sd.windowSize = windowSizeForSampleRate sd.cfg.SampleRate)
    (hbuf : sd.inputBuf.length = contextLen + sd.windowSize) :
    Reset sd = sd0 ∧ runOps m (Reset sd) ops = runOps m sd0 ops := by
  have h1 : Reset sd = sd0 := by
    unfold NewDetector at h0
    rcases hv : cfg.IsValid with _ | e
    · rw [hv] at h0
      cases h0
      unfold Reset
      obtain ⟨c, st, w, ib, ps, pv, sb, cu, tr, te⟩ := sd
      dsimp only at hcfg hws hbuf ⊢
      subst hcfg
      rw [hws] at hbuf ⊢
      rw [hbuf]
    · rw [hv] at h0
      simp at h0
  exact ⟨h1, by rw [h1]⟩

/-- A detector mid-run with arbitrary trigger and buffer contents, used to
exercise `Reset`. -/
def sdDirty : Detector :=
  { sdStd with
      currSample := 2048, triggered := true, pendingStart := 3/250,
      pendingStartValid := true, tempEnd := 1536, streamBuf := List.replicate 7 1,
      state := List.replicate stateLen (1/4),
      inputBuf := List.replicate (contextLen + 512) (1/8) }

theorem C7_reset_replay_witness :
    Reset sdDirty = sdStd ∧
    runOps zeroModel (Reset sdDirty) [VadOp.stream (List.replicate 600 0)] =
      runOps zeroModel sdStd [VadOp.stream (List.replicate 600 0)] :=
  C7_reset_replay zeroModel cfgStd sdStd sdDirty [VadOp.stream (List.replicate 600 0)]
    NewDetector_cfgStd rfl (by unfold sdDirty sdStd cfgStd windowSizeForSampleRate; norm_num)
    (by unfold sdDirty sdStd; norm_num)

/-- C10: each inference consumes a 64-sample context prefix followed by the
window (`Infer` hands `m` exactly `inputBuf[:contextLen] ++ samples`); a
successful `Infer` leaves the context equal to the last 64 samples of the
window just inferred; the context is all zeros after construction and after
`Reset`; and every mix of `Detect`/`DetectStream`/`Reset` calls preserves
the input-buffer well-formedness this relies on. -/
theorem C10_context_invariant :
    (∀ (cfg : DetectorConfig) (sd0 : Detector), NewDetector cfg = .ok sd0 →
      sd0.inputBuf.take contextLen = List.replicate contextLen 0) ∧
    (∀ sd : Detector, contextLen ≤ sd.inputBuf.length →
      (Reset sd).inputBuf.take contextLen = List.replicate contextLen 0) ∧
    (∀ (m : InferenceModel) (sd : Detector) (w : List ℚ),
      w.length = sd.windowSize → sd.windowSize ≠ 0 →
      sd.inputBuf.length = contextLen + sd.windowSize →
      (Infer m sd w).err = none ∧
      (Infer m sd w).prob = (m (sd.inputBuf.take contextLen ++ w) sd.state).1 ∧
      (contextLen ≤ sd.windowSize →
        ((Infer m sd w).sd).inputBuf.take contextLen = w.drop (w.length - contextLen))) ∧
    (∀ (m : InferenceModel) (cfg : DetectorConfig) (sd0 : Detector) (ops : List VadOp),
      NewDetector cfg = .ok sd0 →
      (runOps m sd0 ops).2.inputBuf.length =
        contextLen + (runOps m sd0 ops).2.windowSize) := by
  refine ⟨?_, ?_, ?_, ?_⟩
  · intro cfg sd0 h
    unfold NewDetector at h
    rcases hv : cfg.IsValid with _ | e
    · rw [hv] at h
      cases h
      show (List.replicate (contextLen + windowSizeForSampleRate cfg.SampleRate) (0:ℚ)).take
          contextLen = _
      rw [List.take_replicate]
      congr 1
      omega
    · rw [hv] at h
      simp at h
  · intro sd hlen
    show (List.replicate sd.inputBuf.length (0:ℚ)).take contextLen = _
    rw [List.take_replicate]
    congr 1
    omega
  · intro m sd w hw h0 hbuf
    rw [Infer_ok m sd w h0 hw hbuf]
    refine ⟨rfl, rfl, ?_⟩
    intro hcw
    show (((sd.inputBuf.take contextLen ++ w).drop sd.windowSize) ++ w).take contextLen = _
    have hlt : (sd.inputBuf.take contextLen).length = contextLen := by
      simp only [List.length_take]
      omega
    have hdl : ((sd.inputBuf.take contextLen ++ w).drop sd.windowSize).length = contextLen := by
      simp only [List.length_drop, List.length_append, hlt, hw]
      omega
    rw [List.take_left' hdl]
    have hsplit : sd.windowSize = (sd.inputBuf.take contextLen).length +
        (sd.windowSize - contextLen) := by
      rw [hlt]
      omega
    rw [hsplit, List.drop_append, hw]
  · intro m cfg sd0 ops h
    exact (runOps_inv m ops sd0 (NewDetector_inv cfg sd0 h)).2.ibuf

theorem C10_context_invariant_witness :
    (sdStd.inputBuf.take contextLen = List.replicate contextLen 0) ∧
    ((Reset sdDirty).inputBuf.take contextLen = List.replicate contextLen 0) ∧
    ((Infer zeroModel sdStd (List.replicate 512 3)).err = none ∧
      (Infer zeroModel sdStd (List.replicate 512 3)).prob =
        (zeroModel (sdStd.inputBuf.take contextLen ++ List.replicate 512 3) sdStd.state).1 ∧
      ((Infer zeroModel sdStd (List.replicate 512 3)).sd).inputBuf.take contextLen =
        (List.replicate 512 (3:ℚ)).drop ((List.replicate 512 (3:ℚ)).length - contextLen)) ∧
    ((runOps zeroModel sdStd [VadOp.det (List.replicate 512 0)]).2.inputBuf.length =
      contextLen + (runOps zeroModel sdStd [VadOp.det (List.replicate 512 0)]).2.windowSize) := by
  obtain ⟨h1, h2, h3, h4⟩ := C10_context_invariant
  obtain ⟨ha, hb, hc⟩ := h3 zeroModel sdStd (List.replicate 512 3)
    (by unfold sdStd; norm_num) (by unfold sdStd; norm_num)
    (by unfold sdStd contextLen; norm_num)
  exact ⟨h1 cfgStd sdStd NewDetector_cfgStd,
    h2 sdDirty (by unfold sdDirty sdStd contextLen; norm_num),
    ⟨ha, hb, hc (by unfold sdStd contextLen; norm_num)⟩,
    h4 zeroModel cfgStd sdStd [VadOp.det (List.replicate 512 0)] NewDetector_cfgStd⟩

/-- C1: chunking-invariance.  For every deterministic inference engine,
every freshly constructed detector and every way of splitting a sample
sequence into successive `DetectStream` chunks, the segments reconstructed
from the streaming events (pairing each open start-only segment with the
later closed segment carrying the same start) equal the list returned by a
single batch `Detect` over the same samples. -/
theorem C1_chunking_invariance (m : InferenceModel) (cfg : DetectorConfig) (sd0 : Detector)
    (chunks : List (List ℚ)) (h0 : NewDetector cfg = .ok sd0)
    (hlen : sd0.windowSize ≤ chunks.flatten.length) :
    ∃ segsB sdB segsS sdS,
      Detect m sd0 chunks.flatten = (.ok segsB, sdB) ∧
      streamChunks m sd0 chunks = (.ok segsS, sdS) ∧
      reconstruct segsS = segsB := by
  have hInv := NewDetector_inv cfg sd0 h0
  have hsb : sd0.streamBuf = [] := NewDetector_streamBuf cfg sd0 h0
  obtain ⟨evs, sd2, hRun, _, _, _, _, _, _, _, hgood⟩ :=
    runEvents_ok m (minSilenceSamplesOf sd0) (speechPadSamplesOf sd0) hInv.padSamples
      (windows sd0.windowSize chunks.flatten) sd0 hInv.wsNe hInv.ibuf hInv.trig hInv.curr
      hInv.temp hInv.ratePos
      (windows_length sd0.windowSize chunks.flatten.length chunks.flatten le_rfl)
  have hB : Detect m sd0 chunks.flatten = (.ok (evs.foldl appendBatchEvent []), sd2) := by
    rw [Detect_eq m sd0 chunks.flatten hInv.wsNe hlen, hRun]
  have hsetnil : sd0.setBuf [] = sd0 := by
    rw [← hsb]
    exact setBuf_self sd0
  have hS := streamChunks_eq m chunks sd0 hInv evs sd2 (by
    rw [hsetnil, hsb, List.nil_append]
    exact hRun)
  refine ⟨_, _, _, _, hB, hS, ?_⟩
  exact reconstruct_eq_batch evs hgood

theorem C1_chunking_invariance_witness :
    ∃ segsB sdB segsS sdS,
      Detect zeroModel sdStd ([List.replicate 300 0, List.replicate 300 (0:ℚ)]).flatten =
        (.ok segsB, sdB) ∧
      streamChunks zeroModel sdStd [List.replicate 300 0, List.replicate 300 (0:ℚ)] =
        (.ok segsS, sdS) ∧
      reconstruct segsS = segsB :=
  C1_chunking_invariance zeroModel cfgStd sdStd
    [List.replicate 300 0, List.replicate 300 (0:ℚ)] NewDetector_cfgStd
    (by unfold sdStd; norm_num)

/-- One trigger step at probability level: advance `currSample` by one
window, then run the hysteresis trigger.  This is `processWindow` with the
inference engine factored out (see `processWindow_as_stepProb`). -/
def stepProb (minSilenceSamples speechPadSamples : ℤ) (sd : Detector) (p : ℚ) :
    Except String SpeechEvent × Detector :=
  advanceSpeech { sd with currSample := sd.currSample + (sd.windowSize : ℤ) } p
    minSilenceSamples speechPadSamples

theorem processWindow_as_stepProb (m : InferenceModel) (sd : Detector) (w : List ℚ)
    (a b : ℤ) (h0 : sd.windowSize ≠ 0) (hlen : w.length = sd.windowSize)
    (hbuf : sd.inputBuf.length = contextLen + sd.windowSize) :
    processWindow m sd w a b =
      stepProb a b
        { sd with
            state := (m (inferInput sd w) sd.state).2,
            inputBuf := (inferInput sd w).drop sd.windowSize ++ w }
        ((m (inferInput sd w) sd.state).1) := by
  exact processWindow_ok m sd w a b h0 hlen hbuf

/-- Iterating the trigger over a list of per-window probabilities. -/
def runProbs (minSilenceSamples speechPadSamples : ℤ) :
    Detector → List ℚ → Except String (List SpeechEvent) × Detector
  | sd, [] => (.ok [], sd)
  | sd, p :: ps =>
    match stepProb minSilenceSamples speechPadSamples sd p with
    | (.error e, sd) => (.error e, sd)
    | (.ok ev, sd) =>
      match runProbs minSilenceSamples speechPadSamples sd ps with
      | (.error e, sd) => (.error e, sd)
      | (.ok evs, sd) => (.ok (ev :: evs), sd)

theorem runProbs_append (a b : ℤ) :
    ∀ (l1 l2 : List ℚ) (sd : Detector),
      runProbs a b sd (l1 ++ l2) =
        (match runProbs a b sd l1 with
         | (.error e, sd) => (.error e, sd)
         | (.ok evs1, sd) =>
           match runProbs a b sd l2 with
           | (.error e, sd) => (.error e, sd)
           | (.ok evs2, sd) => (.ok (evs1 ++ evs2), sd)) := by
  intro l1
  induction l1 with
  | nil =>
    intro l2 sd
    rcases h : runProbs a b sd l2 with ⟨r, sd2⟩
    rcases r with e | evs <;> simp [runProbs, h]
  | cons p ps ih =>
    intro l2 sd
    show runProbs a b sd (p :: (ps ++ l2)) = _
    simp only [runProbs]
    rcases hP : stepProb a b sd p with ⟨r, sdB⟩
    rcases r with e | ev
    · rfl
    · dsimp only
      rw [ih l2 sdB]
      rcases h1 : runProbs a b sdB ps with ⟨r1, sd1⟩
      rcases r1 with e | evs1
      · rfl
      · dsimp only
        rcases h2 : runProbs a b sd1 l2 with ⟨r2, sd2⟩
        rcases r2 with e | evs2 <;> rfl

/-- While a release is pending (`tempEnd ≠ 0`) and every probability stays
below the release gap with the elapsed silence still under the debounce
threshold, the trigger emits nothing and only `currSample` advances. -/
theorem lowRun_pending (a b : ℤ) :
    ∀ (probs : List ℚ) (sd : Detector),
      sd.triggered = true → sd.tempEnd ≠ 0 →
      (∀ p ∈ probs, p < sd.cfg.Threshold - 0.15) →
      sd.currSample + (probs.length : ℤ) * (sd.windowSize : ℤ) - sd.tempEnd < a →
      runProbs a b sd probs =
        (.ok (List.replicate probs.length SpeechEvent.empty),
         { sd with currSample := sd.currSample + (probs.length : ℤ) * (sd.windowSize : ℤ) }) := by
  intro probs
  induction probs with
  | nil =>
    intro sd ht h0 hlow hel
    obtain ⟨c, st, w, ib, pq, pv, sb, cu, tr, te⟩ := sd
    simp [runProbs]
  | cons p ps ih =>
    intro sd ht h0 hlow hel
    obtain ⟨c, st, w, ib, pq, pv, sb, cu, tr, te⟩ := sd
    dsimp only at ht h0 hlow hel ⊢
    have hexp : (((ps.length : ℤ) + 1)) * (w : ℤ) =
        (ps.length : ℤ) * (w : ℤ) + (w : ℤ) := by ring
    have hel1 : cu + ((ps.length : ℤ) + 1) * (w : ℤ) - te < a := by
      simp only [List.length_cons] at hel
      push_cast at hel
      exact hel
    have hel2 : cu + (w : ℤ) + (ps.length : ℤ) * (w : ℤ) - te < a := by
      linarith [hexp]
    have hstep : stepProb a b ⟨c, st, w, ib, pq, pv, sb, cu, tr, te⟩ p =
        (.ok SpeechEvent.empty, ⟨c, st, w, ib, pq, pv, sb, cu + (w : ℤ), tr, te⟩) := by
      unfold stepProb
      dsimp only
      rw [advanceSpeech_dip_wait _ p a b ht (hlow p (by simp))
        (by
          unfold releasePoint
          rw [if_neg h0]
          dsimp only
          have hn : (0 : ℤ) ≤ (ps.length : ℤ) * (w : ℤ) :=
            mul_nonneg (Int.ofNat_nonneg _) (Int.ofNat_nonneg _)
          have hwn : (0 : ℤ) ≤ (w : ℤ) := Int.ofNat_nonneg _
          linarith)]
      unfold releasePoint
      rw [if_neg h0]
    show runProbs a b _ (p :: ps) = _
    simp only [runProbs]
    rw [hstep]
    dsimp only
    rw [ih ⟨c, st, w, ib, pq, pv, sb, cu + (w : ℤ), tr, te⟩ ht h0
      (by intro x hx; exact hlow x (by simp [hx]))
      (by dsimp only; linarith)]
    dsimp only
    simp only [List.length_cons, List.replicate_succ]
    push_cast
    rw [show cu + (w : ℤ) + (ps.length : ℤ) * (w : ℤ) =
      cu + ((ps.length : ℤ) + 1) * (w : ℤ) from by ring]

/-- C4: debounce holds.  From a triggered state with no pending release, a
run of consecutive windows whose probabilities drop below `threshold−0.15`
and whose elapsed samples since the first such window stay strictly below
`minSilenceSamples`, followed by a recovering window with probability at or
above the threshold, emits no end event anywhere, leaves the trigger set,
keeps `pendingStart`/`pendingStartValid` unchanged, and the recovering
window resets `tempEnd` to 0. -/
theorem C4_debounce (sd : Detector) (a b : ℤ) (probs : List ℚ) (q : ℚ)
    (ht : sd.triggered = true) (h0 : sd.tempEnd = 0)
    (hcur : 0 ≤ sd.currSample) (hws : 0 < sd.windowSize)
    (hlow : ∀ p ∈ probs, p < sd.cfg.Threshold - 0.15)
    (hel : ∀ k : ℕ, k < probs.length → (k : ℤ) * (sd.windowSize : ℤ) < a)
    (hq : sd.cfg.Threshold ≤ q) :
    ∃ evs sd2, runProbs a b sd (probs ++ [q]) = (.ok evs, sd2) ∧
      (∀ ev ∈ evs, ev.hasEnd = false) ∧
      sd2.triggered = true ∧ sd2.pendingStart = sd.pendingStart ∧
      sd2.pendingStartValid = sd.pendingStartValid ∧ sd2.tempEnd = 0 := by
  obtain ⟨c, st, w, ib, pq, pv, sb, cu, tr, te⟩ := sd
  dsimp only at ht h0 hcur hws hlow hel hq ⊢
  subst h0
  cases probs with
  | nil =>
    have hstep : stepProb a b ⟨c, st, w, ib, pq, pv, sb, cu, tr, 0⟩ q =
        (.ok SpeechEvent.empty, ⟨c, st, w, ib, pq, pv, sb, cu + (w : ℤ), tr, 0⟩) := by
      unfold stepProb
      dsimp only
      rw [advanceSpeech_high_of_triggered _ q a b ht hq]
    refine ⟨[SpeechEvent.empty], ⟨c, st, w, ib, pq, pv, sb, cu + (w : ℤ), tr, 0⟩, ?_, ?_,
      ht, rfl, rfl, rfl⟩
    · show runProbs a b _ [q] = _
      simp only [runProbs]
      rw [hstep]
    · intro ev hev
      rw [List.mem_singleton.mp hev]
      rfl
  | cons p ps =>
    have hwz : (0 : ℤ) < (w : ℤ) := by exact_mod_cast hws
    have ha0 : (0 : ℤ) < a := by
      have := hel 0 (by simp)
      simpa using this
    have hstep1 : stepProb a b ⟨c, st, w, ib, pq, pv, sb, cu, tr, 0⟩ p =
        (.ok SpeechEvent.empty,
         ⟨c, st, w, ib, pq, pv, sb, cu + (w : ℤ), tr, cu + (w : ℤ)⟩) := by
      unfold stepProb
      dsimp only
      rw [advanceSpeech_dip_wait _ p a b ht (hlow p (by simp))
        (by
          unfold releasePoint
          rw [if_pos rfl]
          dsimp only
          omega)]
      unfold releasePoint
      rw [if_pos rfl]
    have hne : cu + (w : ℤ) ≠ 0 := by omega
    have hlowrun := lowRun_pending a b ps
      ⟨c, st, w, ib, pq, pv, sb, cu + (w : ℤ), tr, cu + (w : ℤ)⟩ ht hne
      (by intro x hx; exact hlow x (by simp [hx]))
      (by
        dsimp only
        have := hel ps.length (by simp)
        linarith)
    have hstep2 : stepProb a b
        ⟨c, st, w, ib, pq, pv, sb, cu + (w : ℤ) + (ps.length : ℤ) * (w : ℤ), tr,
          cu + (w : ℤ)⟩ q =
        (.ok SpeechEvent.empty,
         ⟨c, st, w, ib, pq, pv, sb,
          cu + (w : ℤ) + (ps.length : ℤ) * (w : ℤ) + (w : ℤ), tr, 0⟩) := by
      unfold stepProb
      dsimp only
      rw [advanceSpeech_high_of_triggered _ q a b ht hq]
    refine ⟨SpeechEvent.empty :: (List.replicate ps.length SpeechEvent.empty ++
      [SpeechEvent.empty]),
      ⟨c, st, w, ib, pq, pv, sb,
        cu + (w : ℤ) + (ps.length : ℤ) * (w : ℤ) + (w : ℤ), tr, 0⟩, ?_, ?_, ht, rfl, rfl, rfl⟩
    · show runProbs a b _ ((p :: ps) ++ [q]) = _
      rw [show (p :: ps) ++ [q] = p :: (ps ++ [q]) from rfl]
      simp only [runProbs]
      rw [hstep1]
      dsimp only
      rw [runProbs_append a b ps [q] _, hlowrun]
      dsimp only
      simp only [runProbs]
      rw [hstep2]
    · intro ev hev
      rcases List.mem_cons.mp hev with rfl | hev2
      · rfl
      · rcases List.mem_append.mp hev2 with hev3 | hev3
        · rw [(List.eq_of_mem_replicate hev3)]
          rfl
        · rw [List.mem_singleton.mp hev3]
          rfl

/-- A triggered detector with an open pending start, used to exercise the
debounce behaviour. -/
def sdTrig : Detector :=
  { sdStd with triggered := true, pendingStartValid := true, currSample := 1024,
               pendingStart := 8/125 }

theorem C4_debounce_witness :
    ∃ evs sd2, runProbs 10000 0 sdTrig (([0.1, 0.2] : List ℚ) ++ [0.9]) = (.ok evs, sd2) ∧
      (∀ ev ∈ evs, ev.hasEnd = false) ∧
      sd2.triggered = true ∧ sd2.pendingStart = sdTrig.pendingStart ∧
      sd2.pendingStartValid = sdTrig.pendingStartValid ∧ sd2.tempEnd = 0 :=
  C4_debounce sdTrig 10000 0 [0.1, 0.2] 0.9 rfl rfl
    (by unfold sdTrig sdStd; norm_num) (by unfold sdTrig sdStd; norm_num)
    (by
      intro p hp
      unfold sdTrig sdStd cfgStd
      rcases List.mem_cons.mp hp with rfl | hp2
      · norm_num
      · rw [List.mem_singleton.mp hp2]
        norm_num)
    (by
      intro k hk
      unfold sdTrig sdStd
      simp only [List.length_cons, List.length_nil] at hk
      interval_cases k <;> norm_num)
    (by unfold sdTrig sdStd cfgStd; norm_num)

theorem headD_replicate (n : ℕ) (x d : ℚ) (hn : 0 < n) : (List.replicate n x).headD d = x := by
  cases n with
  | zero => omega
  | succ k => rfl

theorem windows_replicate (ws : ℕ) (hws : 0 < ws) (x : ℚ) :
    ∀ k : ℕ, windows ws (List.replicate (k * ws) x) =
      List.replicate k (List.replicate ws x) := by
  intro k
  induction k with
  | zero =>
    rw [Nat.zero_mul, List.replicate_zero, List.replicate_zero,
      windows_stop _ _ (by simp only [List.length_nil]; omega)]
  | succ k ih =>
    rw [show (k + 1) * ws = ws + k * ws from by ring, List.replicate_add,
      windows_cons ws _ _ hws (by simp), ih, List.replicate_succ]

/-- The per-window probabilities of the C2 scenario. -/
def c2probs : List ℚ := [0.1, 0.1, 0.6, 0.6, 0.1, 0.1]

/-- An inference model realizing the C2 scenario: the recurrent state
counts the windows inferred so far, and the probability for the k-th
window is `c2probs[k]`. -/
def c2model : InferenceModel :=
  fun _ st => (c2probs.getD (st.headD 0).num.toNat 0, [st.headD 0 + 1])

theorem coreStep_zero_window (sd : Detector) (hbuf : sd.inputBuf = List.replicate 576 0)
    (hws : sd.windowSize = 512) :
    coreStep c2model sd (List.replicate 512 0) =
      { sd with
          state := [sd.state.headD 0 + 1], inputBuf := List.replicate 576 0,
          currSample := sd.currSample + 512 } := by
  unfold coreStep inferInput c2model contextLen
  rw [hbuf, hws]
  norm_num [List.take_replicate, List.drop_replicate, ← List.replicate_add]

def c2s1 : Detector := { sdStd with state := [1], currSample := 512 }

def c2s2 : Detector := { sdStd with state := [2], currSample := 1024 }

def c2s3 : Detector :=
  { sdStd with
      state := [3], currSample := 1536, triggered := true, pendingStart := 8/125,
      pendingStartValid := true }

def c2s4 : Detector :=
  { sdStd with
      state := [4], currSample := 2048, triggered := true, pendingStart := 8/125,
      pendingStartValid := true }

def c2s5 : Detector :=
  { sdStd with
      state := [5], currSample := 2560, triggered := false, pendingStart := 8/125,
      pendingStartValid := false }

def c2s6 : Detector :=
  { sdStd with
      state := [6], currSample := 3072, triggered := false, pendingStart := 8/125,
      pendingStartValid := false }

/-- The start event of the C2 scenario (window index 2). -/
def c2start : SpeechEvent := { SpeechEvent.empty with hasStart := true, startAt := 8/125 }

/-- The end event of the C2 scenario (window index 4). -/
def c2end : SpeechEvent :=
  { SpeechEvent.empty with hasEnd := true, endAt := 4/25, endStartAt := 8/125 }

theorem c2step1 : processWindow c2model sdStd (List.replicate 512 0) 0 0 =
    (.ok SpeechEvent.empty, c2s1) := by
  rw [processWindow_ok c2model sdStd _ 0 0 (by unfold sdStd; norm_num)
    (by unfold sdStd; norm_num) (by unfold sdStd contextLen; norm_num)]
  rw [coreStep_zero_window sdStd (by unfold sdStd contextLen; rfl) (by unfold sdStd; rfl)]
  have hp : (c2model (inferInput sdStd (List.replicate 512 0)) sdStd.state).1 = 0.1 := by
    unfold c2model
    rw [show sdStd.state = List.replicate 256 0 from by unfold sdStd stateLen; rfl]
    rw [headD_replicate 256 0 0 (by norm_num)]
    norm_num [c2probs, List.getD, Int.toNat_ofNat]
  rw [hp]
  rw [advanceSpeech_low_of_notTriggered _ _ 0 0 rfl (by unfold sdStd cfgStd; norm_num)]
  rw [show sdStd.state = List.replicate 256 0 from by unfold sdStd stateLen; rfl]
  rw [headD_replicate 256 0 0 (by norm_num)]
  unfold c2s1 sdStd stateLen contextLen
  norm_num

theorem c2step2 : processWindow c2model c2s1 (List.replicate 512 0) 0 0 =
    (.ok SpeechEvent.empty, c2s2) := by
  rw [processWindow_ok c2model c2s1 _ 0 0 (by unfold c2s1 sdStd; norm_num)
    (by unfold c2s1 sdStd; norm_num) (by unfold c2s1 sdStd contextLen; norm_num)]
  rw [coreStep_zero_window c2s1 (by unfold c2s1 sdStd contextLen; rfl)
    (by unfold c2s1 sdStd; rfl)]
  have hp : (c2model (inferInput c2s1 (List.replicate 512 0)) c2s1.state).1 = 0.1 := by
    unfold c2model c2s1 sdStd
    norm_num [c2probs, List.getD, Int.toNat_ofNat]
    try rfl
  rw [hp]
  rw [advanceSpeech_low_of_notTriggered _ _ 0 0 rfl (by unfold c2s1 sdStd cfgStd; norm_num)]
  unfold c2s2 c2s1 sdStd contextLen
  norm_num

theorem c2step3 : processWindow c2model c2s2 (List.replicate 512 0) 0 0 =
    (.ok c2start, c2s3) := by
  rw [processWindow_ok c2model c2s2 _ 0 0 (by unfold c2s2 sdStd; norm_num)
    (by unfold c2s2 sdStd; norm_num) (by unfold c2s2 sdStd contextLen; norm_num)]
  rw [coreStep_zero_window c2s2 (by unfold c2s2 sdStd contextLen; rfl)
    (by unfold c2s2 sdStd; rfl)]
  have hp : (c2model (inferInput c2s2 (List.replicate 512 0)) c2s2.state).1 = 0.6 := by
    unfold c2model c2s2 sdStd
    norm_num [c2probs, List.getD, Int.toNat_ofNat]
    try rfl
  rw [hp]
  rw [advanceSpeech_start _ _ 0 0 rfl (by unfold c2s2 sdStd cfgStd; norm_num)]
  unfold c2start c2s3 c2s2 sdStd startTimestamp cfgStd contextLen
  norm_num

theorem c2step4 : processWindow c2model c2s3 (List.replicate 512 0) 0 0 =
    (.ok SpeechEvent.empty, c2s4) := by
  rw [processWindow_ok c2model c2s3 _ 0 0 (by unfold c2s3 sdStd; norm_num)
    (by unfold c2s3 sdStd; norm_num) (by unfold c2s3 sdStd contextLen; norm_num)]
  rw [coreStep_zero_window c2s3 (by unfold c2s3 sdStd contextLen; rfl)
    (by unfold c2s3 sdStd; rfl)]
  have hp : (c2model (inferInput c2s3 (List.replicate 512 0)) c2s3.state).1 = 0.6 := by
    unfold c2model c2s3 sdStd
    norm_num [c2probs, List.getD, Int.toNat_ofNat]
    try rfl
  rw [hp]
  rw [advanceSpeech_high_of_triggered _ _ 0 0 rfl (by unfold c2s3 sdStd cfgStd; norm_num)]
  unfold c2s4 c2s3 sdStd contextLen
  norm_num

theorem c2step5 : processWindow c2model c2s4 (List.replicate 512 0) 0 0 =
    (.ok c2end, c2s5) := by
  rw [processWindow_ok c2model c2s4 _ 0 0 (by unfold c2s4 sdStd; norm_num)
    (by unfold c2s4 sdStd; norm_num) (by unfold c2s4 sdStd contextLen; norm_num)]
  rw [coreStep_zero_window c2s4 (by unfold c2s4 sdStd contextLen; rfl)
    (by unfold c2s4 sdStd; rfl)]
  have hp : (c2model (inferInput c2s4 (List.replicate 512 0)) c2s4.state).1 = 0.1 := by
    unfold c2model c2s4 sdStd
    norm_num [c2probs, List.getD, Int.toNat_ofNat]
    try rfl
  rw [hp]
  rw [advanceSpeech_dip_end _ _ 0 0 rfl (by unfold c2s4 sdStd cfgStd; norm_num)
    (by unfold releasePoint c2s4 sdStd; norm_num) rfl]
  unfold c2end c2s5 c2s4 sdStd releasePoint cfgStd contextLen
  norm_num

theorem c2step6 : processWindow c2model c2s5 (List.replicate 512 0) 0 0 =
    (.ok SpeechEvent.empty, c2s6) := by
  rw [processWindow_ok c2model c2s5 _ 0 0 (by unfold c2s5 sdStd; norm_num)
    (by unfold c2s5 sdStd; norm_num) (by unfold c2s5 sdStd contextLen; norm_num)]
  rw [coreStep_zero_window c2s5 (by unfold c2s5 sdStd contextLen; rfl)
    (by unfold c2s5 sdStd; rfl)]
  have hp : (c2model (inferInput c2s5 (List.replicate 512 0)) c2s5.state).1 = 0.1 := by
    unfold c2model c2s5 sdStd
    norm_num [c2probs, List.getD, Int.toNat_ofNat]
    try rfl
  rw [hp]
  rw [advanceSpeech_low_of_notTriggered _ _ 0 0 rfl (by unfold c2s5 sdStd cfgStd; norm_num)]
  unfold c2s6 c2s5 sdStd contextLen
  norm_num

theorem c2run : runEvents c2model 0 0 sdStd
    [List.replicate 512 0, List.replicate 512 0, List.replicate 512 0,
     List.replicate 512 0, List.replicate 512 0, List.replicate 512 0] =
    (.ok [SpeechEvent.empty, SpeechEvent.empty, c2start, SpeechEvent.empty, c2end,
      SpeechEvent.empty], c2s6) := by
  simp only [runEvents]
  rw [c2step1]
  dsimp only
  rw [c2step2]
  dsimp only
  rw [c2step3]
  dsimp only
  rw [c2step4]
  dsimp only
  rw [c2step5]
  dsimp only
  rw [c2step6]

theorem c2detect : Detect c2model sdStd (List.replicate 3072 0) =
    (.ok [{ SpeechStartAt := 8/125, SpeechEndAt := 4/25 }], c2s6) := by
  rw [Detect_eq c2model sdStd _ (by unfold sdStd; norm_num) (by unfold sdStd; norm_num)]
  rw [minSilenceSamplesOf_sdStd, speechPadSamplesOf_sdStd]
  rw [show sdStd.windowSize = 512 from rfl]
  rw [show List.replicate 3072 (0:ℚ) = List.replicate (6 * 512) 0 from by norm_num]
  rw [windows_replicate 512 (by norm_num) 0 6]
  rw [show List.replicate 6 (List.replicate 512 (0:ℚ)) =
    [List.replicate 512 0, List.replicate 512 0, List.replicate 512 0,
     List.replicate 512 0, List.replicate 512 0, List.replicate 512 0] from rfl]
  rw [c2run]
  dsimp only
  norm_num [appendBatchEvent, SpeechEvent.empty, c2start, c2end]

/-- C2 counterexample: in the concrete scenario (16000 Hz, threshold 0.5,
no debounce, no padding, window probabilities [0.1,0.1,0.6,0.6,0.1,0.1]),
the batch detection result is not a segment ending at 0.128 s as the claim
states. -/
theorem C2_scenario_counterexample :
    (Detect c2model sdStd (List.replicate 3072 0)).1 ≠
      .ok [{ SpeechStartAt := 0.064, SpeechEndAt := 0.128 }] := by
  rw [c2detect]
  intro h
  simp only [Except.ok.injEq, List.cons.injEq, Segment.mk.injEq] at h
  have := h.1.2
  norm_num at this

/-- C2 as amended: the single detected segment starts at the window-index-2
boundary 0.064 s, but ends at the window-index-5 boundary 5*512/16000 =
0.16 s (the release sample is `currSample` of the first below-gap window,
which has already been advanced past that window), not at 0.128 s. -/
theorem C2_scenario_amended :
    NewDetector cfgStd = .ok sdStd ∧
    ∃ sdF, Detect c2model sdStd (List.replicate 3072 0) =
      (.ok [{ SpeechStartAt := 0.064, SpeechEndAt := 0.16 }], sdF) := by
  refine ⟨NewDetector_cfgStd, ⟨c2s6, ?_⟩⟩
  rw [c2detect]
  norm_num

end SileroVAD
